import Mathlib

/-!
# go-onvif: WS-Discovery correlator and SOAP transport

A shallow embedding of `discovery.go` and `soap.go`.

Go strings are modelled as lists of characters (`Str`).  Every pattern the
program matches against (`" "`, `"."`, `"_"`, `"urn:uuid:"`, the two clean-up
regular expressions) is ASCII, so working on code points or on UTF-8 bytes gives
the same result for text.  Byte slices are lists of naturals below 256.

Everything the program obtains from outside (the random UUID source, the clock,
the URL parser, the HTTP exchange, the XML decoder, the UDP socket) is an
explicit input of the function that uses it.
-/

namespace Onvif

/-- Go `string`, as a sequence of characters. -/
abbrev Str := List Char

/-- Go `[]byte`, each entry below 256. -/
abbrev Bytes := List Nat

/-! ## Package `strings` -/

/-- Go `strings.HasPrefix(s, p)`. -/
def stringsHasPrefix (s p : Str) : Bool := p.isPrefixOf s

/-- Worker of `stringsSplit` for a non-empty separator: `skip` counts the
characters of a separator occurrence still to be passed over, `cur` is the piece
read so far. -/
def splitAux (sep : Str) : Nat → Str → Str → List Str
  | _, cur, [] => [cur]
  | skip + 1, cur, _ :: cs => splitAux sep skip cur cs
  | 0, cur, c :: cs =>
    if sep.isPrefixOf (c :: cs) then cur :: splitAux sep (sep.length - 1) [] cs
    else splitAux sep 0 (cur ++ [c]) cs

/-- Go `strings.Split(s, sep)`: the pieces of `s` around each occurrence of
`sep`; with an empty `sep` the string is exploded into its characters. -/
def stringsSplit (s sep : Str) : List Str :=
  if sep = [] then s.map (fun c => [c]) else splitAux sep 0 [] s

/-- Worker of `stringsReplace` for an empty `old`: `new` is inserted before
each character and at the end, at most `n` times (`none`: no limit). -/
def replaceEmpty (new : Str) : Option Nat → Str → Str
  | some 0, s => s
  | _, [] => new
  | n, c :: cs => new ++ c :: replaceEmpty new (n.map Nat.pred) cs

/-- Worker of `stringsReplace` for a non-empty `old`: `skip` counts the
characters of a replaced occurrence still to be passed over, `n` the
replacements still allowed (`none`: no limit). -/
def replaceAux (old new : Str) : Nat → Option Nat → Str → Str
  | _, _, [] => []
  | skip + 1, n, _ :: cs => replaceAux old new skip n cs
  | 0, n, c :: cs =>
    if n ≠ some 0 ∧ old.isPrefixOf (c :: cs) then
      new ++ replaceAux old new (old.length - 1) (n.map Nat.pred) cs
    else c :: replaceAux old new 0 n cs

/-- Go `strings.Replace(s, old, new, n)`: the first `n` non-overlapping
occurrences of `old` replaced by `new`, all of them when `n < 0`. -/
def stringsReplace (s old new : Str) (n : Int) : Str :=
  let limit : Option Nat := if n < 0 then none else some n.toNat
  if old = new ∨ n = 0 then s
  else if old = [] then replaceEmpty new limit s
  else replaceAux old new 0 limit s

/-! ## Package `regexp`: the two clean-up substitutions -/

/-- Go regexp class `\s`, which is `[\t\n\f\r ]`. -/
def isSpace (c : Char) : Bool :=
  c = ' ' || c = '\t' || c = '\n' || c = '\r' || c = Char.ofNat 12

/-- One character of the left-to-right scan for `\>\s+\<`.  The state is `none`
outside a candidate match and `some ws` after a `>` followed by the whitespace
`ws` (already read, not yet written).  Returns what is written and the next
state: a `<` that ends a non-empty whitespace run completes a match and the run
is dropped; any other character ends the candidate and the run is written back. -/
def tagStep (st : Option Str) (c : Char) : Str × Option Str :=
  match st with
  | none => ([c], if c = '>' then some [] else none)
  | some ws =>
    if isSpace c then ([], some (ws ++ [c]))
    else if c = '<' ∧ ws ≠ [] then (['<'], none)
    else (ws ++ [c], if c = '>' then some [] else none)

/-- The scan of `tagStep` over a string, from state `st`; whitespace still
pending at the end of the input is written back. -/
def replaceTagGapsFrom : Option Str → Str → Str
  | st, [] => st.getD []
  | st, c :: cs => (tagStep st c).1 ++ replaceTagGapsFrom (tagStep st c).2 cs

/-- Go `regexp.MustCompile("\>\s+\<").ReplaceAllString(s, "><")`: every `>`,
whitespace run, `<` sequence loses its whitespace run. -/
def replaceTagGaps (s : Str) : Str := replaceTagGapsFrom none s

/-- The scan for `\s+`: `inRun` tells whether the previous character was
whitespace (its run has already been replaced by one space). -/
def replaceSpacesFrom : Bool → Str → Str
  | _, [] => []
  | inRun, c :: cs =>
    if isSpace c then
      if inRun then replaceSpacesFrom true cs else ' ' :: replaceSpacesFrom true cs
    else c :: replaceSpacesFrom false cs

/-- Go `regexp.MustCompile("\s+").ReplaceAllString(s, " ")`: every maximal
whitespace run becomes one space. -/
def replaceSpaces (s : Str) : Str := replaceSpacesFrom false s

/-- The two substitutions applied, in this order, at the end of `createRequest`
and to the probe in `discoverDevices`. -/
def cleanMessage (s : Str) : Str := replaceSpaces (replaceTagGaps s)

/-! ## Errors -/

/-- Go `error` values met by the program.  `errWrongDiscoveryResponse` is the
package-level sentinel, compared by identity; `errorsNew msg` is a value made by
`errors.New(msg)` inside a function (never identical to the sentinel);
`external timeout msg` is an error handed back by a library, `timeout` telling
whether it is a `net.Error` whose `Timeout()` is true. -/
inductive Error where
  | errWrongDiscoveryResponse
  | errorsNew (msg : Str)
  | external (timeout : Bool) (msg : Str)
deriving DecidableEq, Repr

/-- Go `err.Error()`. -/
def Error.message : Error → Str
  | .errWrongDiscoveryResponse => "Response is not related to discovery request".toList
  | .errorsNew msg => msg
  | .external _ msg => msg

/-- The test `udpErr, ok := err.(net.Error); ok && udpErr.Timeout()`. -/
def Error.isTimeout : Error → Bool
  | .external timeout _ => timeout
  | _ => false

/-! ## Package `mxj`: decoded XML trees and path lookup -/

/-- A value of a decoded XML tree (`interface{}` inside an `mxj.Map`).  As
`mxj.NewMapXml` builds it: an element with only character data and no attribute
is a string; an element with attributes or child elements is a map, keyed by
child name, by `-` followed by the attribute name, and by `#text` for its
character data; a repeated child is a list. -/
inductive Val where
  | str (s : Str)
  | map (kvs : List (Str × Val))
  | list (vs : List Val)

/-- Go `mxj.Map`, a `map[string]interface{}`, as an association list. -/
abbrev Map := List (Str × Val)

/-- The library's `valuesForKeyPath` for keys that are plain names (the paths of
this program hold no `*` and no `[`): the values reached from `m` along `keys`,
looking into every member of a list met on the way. -/
def valuesForKeyPath : List Str → Val → List Val
  | [], .list vs => vs
  | [], m => [m]
  | key :: keys, .map kvs =>
    match kvs.lookup key with
    | some v => valuesForKeyPath keys v
    | none => []
  | key :: keys, .list vs =>
    vs.flatMap fun v =>
      match v with
      | .map kvs =>
        match kvs.lookup key with
        | some vv => valuesForKeyPath keys vv
        | none => []
      | _ => []
  | _ :: _, .str _ => []

/-- The library's `ValuesForPath(path)`: the path is split at `.`, a trailing
empty key is dropped. -/
def ValuesForPath (mv : Map) (path : Str) : List Val :=
  let keys := stringsSplit path ".".toList
  let keys := if keys.getLast? = some [] then keys.dropLast else keys
  valuesForKeyPath keys (.map mv)

/-- The library's `ValueForPathString(path)`: the first value on the path when
it is a string, otherwise the empty string and an error. -/
def ValueForPathString (mv : Map) (path : Str) : Str × Option Error :=
  match ValuesForPath mv path with
  | [] => ([], some (.external false "ValueForPath: path not found".toList))
  | .str s :: _ => (s, none)
  | _ :: _ => ([], some (.external false "ValueForPath: unsupported type".toList))

/-! ## `discovery.go` -/

/-- Modelled from the spec: the declaration of the `Device` type is not among
the source files; the spec gives it as an identity record of three strings, and
`readDiscoveryResponse` assigns the fields `ID`, `Name` and `XAddr`. -/
structure Device where
  ID : Str
  Name : Str
  XAddr : Str
deriving DecidableEq, Repr

/-- The scope that announces a device name starts with this text. -/
def nameScope : Str := "onvif://www.onvif.org/name/".toList

/-- The loop over the scopes in `readDiscoveryResponse`: `deviceName` stays
empty until a scope with the name marker is met, then the loop breaks. -/
def scanScopes : List Str → Str
  | [] => []
  | scope :: rest =>
    if stringsHasPrefix scope nameScope then
      stringsReplace (stringsReplace scope nameScope [] 1) "_".toList " ".toList (-1)
    else scanScopes rest

/-- Go `readDiscoveryResponse(messageID, buffer)`, with the XML decoder
`mxj.NewMapXml` as an input. -/
def readDiscoveryResponse (newMapXml : Bytes → Except Error Map)
    (messageID : Str) (buffer : Bytes) : Device × Option Error :=
  let result : Device := ⟨[], [], []⟩
  match newMapXml buffer with
  | .error err => (result, some err)
  | .ok mapXML =>
    let responseMessageID := (ValueForPathString mapXML "Envelope.Header.RelatesTo".toList).1
    if responseMessageID ≠ messageID then (result, some .errWrongDiscoveryResponse)
    else
      let deviceID := (ValueForPathString mapXML
        "Envelope.Body.ProbeMatches.ProbeMatch.EndpointReference.Address".toList).1
      let deviceID := stringsReplace deviceID "urn:uuid:".toList [] 1
      let scopes := (ValueForPathString mapXML
        "Envelope.Body.ProbeMatches.ProbeMatch.Scopes".toList).1
      let deviceName := scanScopes (stringsSplit scopes " ".toList)
      let xAddrs := (ValueForPathString mapXML
        "Envelope.Body.ProbeMatches.ProbeMatch.XAddrs".toList).1
      match stringsSplit xAddrs " ".toList with
      | [] => (result, some (.errorsNew "Device does not have any xAddr".toList))
      | first :: _ => ({ ID := deviceID, Name := deviceName, XAddr := first }, none)

/-- One outcome of `conn.ReadFromUDP(buffer)`: a datagram left in the buffer, or
an error. -/
inductive Recv where
  | datagram (buffer : Bytes)
  | failure (err : Error)

/-- What the outside world does during one call of `discoverDevices`: the
outcome of each library call, in program order.  `reads` lists the outcomes of
the successive `ReadFromUDP` calls; the deadline set on the socket makes every
read after those fail with a timeout. -/
structure Session where
  newV4 : Except Error Str
  resolveLocal : Option Error
  resolveMulticast : Option Error
  listenUDP : Option Error
  setDeadline : Option Error
  writeToUDP : Str → Option Error
  reads : List Recv

/-- The probe before clean-up, around the request identifier. -/
def probeRequest (requestID : Str) : Str :=
  "\t\t\n\t\t<?xml version=\"1.0\" encoding=\"UTF-8\"?>\n\t\t<e:Envelope\n\t\t    xmlns:e=\"http://www.w3.org/2003/05/soap-envelope\"\n\t\t    xmlns:w=\"http://schemas.xmlsoap.org/ws/2004/08/addressing\"\n\t\t    xmlns:d=\"http://schemas.xmlsoap.org/ws/2005/04/discovery\"\n\t\t    xmlns:dn=\"http://www.onvif.org/ver10/network/wsdl\">\n\t\t    <e:Header>\n\t\t        <w:MessageID>".toList
  ++ requestID ++
  "</w:MessageID>\n\t\t        <w:To e:mustUnderstand=\"true\">urn:schemas-xmlsoap-org:ws:2005:04:discovery</w:To>\n\t\t        <w:Action a:mustUnderstand=\"true\">http://schemas.xmlsoap.org/ws/2005/04/discovery/Probe\n\t\t        </w:Action>\n\t\t    </e:Header>\n\t\t    <e:Body>\n\t\t        <d:Probe>\n\t\t            <d:Types>dn:NetworkVideoTransmitter</d:Types>\n\t\t        </d:Probe>\n\t\t    </e:Body>\n\t\t</e:Envelope>".toList

/-- The receive loop of `discoverDevices`: `discoveryResults` so far, and the
read outcomes still to come. -/
def readLoop (newMapXml : Bytes → Except Error Map) (requestID : Str) :
    List Device → List Recv → List Device × Option Error
  | discoveryResults, [] => (discoveryResults, none)
  | discoveryResults, .failure err :: _ =>
    if err.isTimeout then (discoveryResults, none) else (discoveryResults, some err)
  | discoveryResults, .datagram buffer :: rest =>
    match readDiscoveryResponse newMapXml requestID buffer with
    | (device, err) =>
      if err ≠ none ∧ err ≠ some .errWrongDiscoveryResponse then (discoveryResults, err)
      else readLoop newMapXml requestID (discoveryResults ++ [device]) rest

/-- Go `discoverDevices(ipAddr, duration)`, run against the session `w`. -/
def discoverDevices (newMapXml : Bytes → Except Error Map) (w : Session) :
    List Device × Option Error :=
  match w.newV4 with
  | .error err => ([], some err)
  | .ok uuid =>
    let requestID := "uuid:".toList ++ uuid
    let request := cleanMessage (probeRequest requestID)
    match w.resolveLocal with
    | some err => ([], some err)
    | none =>
    match w.resolveMulticast with
    | some err => ([], some err)
    | none =>
    match w.listenUDP with
    | some err => ([], some err)
    | none =>
    match w.setDeadline with
    | some err => ([], some err)
    | none =>
    match w.writeToUDP request with
    | some err => ([], some err)
    | none => readLoop newMapXml requestID [] w.reads

/-- An entry of `net.InterfaceAddrs()`: whether it is a `*net.IPNet`, and what
its IP answers to the tests of `StartDiscovery`. -/
structure InterfaceAddr where
  isIPNet : Bool
  isLoopback : Bool
  isLinkLocalUnicast : Bool
  isIPv4 : Bool
  ip : Str

/-- The outside world of `StartDiscovery`: the interface list, the session met
on each local address for a given duration, and the XML decoder. -/
structure DiscoveryEnv where
  interfaceAddrs : Except Error (List InterfaceAddr)
  session : Str → Int → Session
  newMapXml : Bytes → Except Error Map

/-- The loop of `StartDiscovery` over the IPv4 addresses. -/
def discoverAll (env : DiscoveryEnv) (duration : Int) :
    List Device → List Str → List Device × Option Error
  | discoveryResults, [] => (discoveryResults, none)
  | discoveryResults, ipAddr :: rest =>
    match discoverDevices env.newMapXml (env.session ipAddr duration) with
    | (_, some err) => ([], some err)
    | (devices, none) => discoverAll env duration (discoveryResults ++ devices) rest

/-- The loop of `StartDiscovery` that fetches the IPv4 addresses: the text of
every interface address that is an IP network, not loopback, not link-local
unicast, and IPv4. -/
def ipAddrsOf : List InterfaceAddr → List Str
  | [] => []
  | addr :: rest =>
    if addr.isIPNet && !addr.isLoopback && !addr.isLinkLocalUnicast && addr.isIPv4 then
      addr.ip :: ipAddrsOf rest
    else ipAddrsOf rest

/-- Go `StartDiscovery(duration)`. -/
def StartDiscovery (env : DiscoveryEnv) (duration : Int) : List Device × Option Error :=
  match env.interfaceAddrs with
  | .error err => ([], some err)
  | .ok addrs => discoverAll env duration [] (ipAddrsOf addrs)

/-! ## Packages `encoding/base64`, `crypto/sha1` and UTF-8 -/

/-- The UTF-8 bytes of a character. -/
def utf8Char (c : Char) : Bytes :=
  let n := c.toNat
  if n < 128 then [n]
  else if n < 2048 then [192 + n / 64, 128 + n % 64]
  else if n < 65536 then [224 + n / 4096, 128 + n / 64 % 64, 128 + n % 64]
  else [240 + n / 262144, 128 + n / 4096 % 64, 128 + n / 64 % 64, 128 + n % 64]

/-- Go `[]byte(s)` for a string of text. -/
def utf8 (s : Str) : Bytes := s.flatMap utf8Char

/-- The alphabet of `base64.StdEncoding`. -/
def base64Alphabet : Str :=
  "ABCDEFGHIJKLMNOPQRSTUVWXYZabcdefghijklmnopqrstuvwxyz0123456789+/".toList

/-- The character of a 6-bit value. -/
def base64Char (n : Nat) : Char := base64Alphabet.getD n '='

/-- Go `base64.StdEncoding.EncodeToString`. -/
def base64Encode : Bytes → Str
  | [] => []
  | [a] => [base64Char (a / 4), base64Char (a % 4 * 16), '=', '=']
  | [a, b] =>
    [base64Char (a / 4), base64Char (a % 4 * 16 + b / 16), base64Char (b % 16 * 4), '=']
  | a :: b :: c :: rest =>
    base64Char (a / 4) :: base64Char (a % 4 * 16 + b / 16) ::
      base64Char (b % 16 * 4 + c / 64) :: base64Char (c % 64) :: base64Encode rest

/-- Reduction to a 32-bit word. -/
def mask32 (x : Nat) : Nat := x % 4294967296

/-- Left rotation of a 32-bit word by `n` bits. -/
def rotl (n x : Nat) : Nat := mask32 ((x <<< n) ||| (x >>> (32 - n)))

/-- The `k` big-endian bytes of `n`. -/
def bigEndian : Nat → Nat → Bytes
  | 0, _ => []
  | k + 1, n => bigEndian k (n / 256) ++ [n % 256]

/-- SHA-1 padding: a `0x80` byte, zero bytes up to 56 modulo 64, and the bit
length on eight bytes. -/
def sha1Pad (msg : Bytes) : Bytes :=
  msg ++ [128] ++ List.replicate ((119 - msg.length % 64) % 64) 0 ++
    bigEndian 8 (8 * msg.length)

/-- The big-endian 32-bit words of a block. -/
def beWords : Bytes → List Nat
  | a :: b :: c :: d :: rest => (((a * 256 + b) * 256 + c) * 256 + d) :: beWords rest
  | _ => []

/-- The message schedule grown by `k` words. -/
def extendSchedule : Nat → List Nat → List Nat
  | 0, w => w
  | k + 1, w =>
    let i := w.length
    extendSchedule k (w ++ [rotl 1
      (w.getD (i - 3) 0 ^^^ w.getD (i - 8) 0 ^^^ w.getD (i - 14) 0 ^^^ w.getD (i - 16) 0)])

/-- The five chaining words of SHA-1. -/
structure Sha1State where
  a : Nat
  b : Nat
  c : Nat
  d : Nat
  e : Nat

/-- Round `i` of the compression function, with schedule word `wi`. -/
def sha1Round (s : Sha1State) (i wi : Nat) : Sha1State :=
  let f :=
    if i < 20 then (s.b &&& s.c) ||| ((4294967295 - s.b) &&& s.d)
    else if i < 40 then s.b ^^^ s.c ^^^ s.d
    else if i < 60 then (s.b &&& s.c) ||| (s.b &&& s.d) ||| (s.c &&& s.d)
    else s.b ^^^ s.c ^^^ s.d
  let k :=
    if i < 20 then 0x5A827999 else if i < 40 then 0x6ED9EBA1
    else if i < 60 then 0x8F1BBCDC else 0xCA62C1D6
  ⟨mask32 (rotl 5 s.a + f + s.e + k + wi), s.a, rotl 30 s.b, s.c, s.d⟩

/-- The rounds over the schedule words, numbered from `i`. -/
def sha1Rounds : Nat → Sha1State → List Nat → Sha1State
  | _, s, [] => s
  | i, s, wi :: ws => sha1Rounds (i + 1) (sha1Round s i wi) ws

/-- The compression of one 64-byte block into the chaining value. -/
def sha1Block (h : Sha1State) (block : Bytes) : Sha1State :=
  let s := sha1Rounds 0 h (extendSchedule 64 (beWords block))
  ⟨mask32 (h.a + s.a), mask32 (h.b + s.b), mask32 (h.c + s.c), mask32 (h.d + s.d),
    mask32 (h.e + s.e)⟩

/-- The compression of `n` successive blocks. -/
def sha1Blocks : Nat → Sha1State → Bytes → Sha1State
  | 0, h, _ => h
  | n + 1, h, bs => sha1Blocks n (sha1Block h (bs.take 64)) (bs.drop 64)

/-- Go `sha1.New()`, `Write(msg)`, `Sum(nil)`: the 20-byte SHA-1 digest. -/
def sha1Sum (msg : Bytes) : Bytes :=
  let padded := sha1Pad msg
  let h := sha1Blocks (padded.length / 64)
    ⟨0x67452301, 0xEFCDAB89, 0x98BADCFE, 0x10325476, 0xC3D2E1F0⟩ padded
  bigEndian 4 h.a ++ bigEndian 4 h.b ++ bigEndian 4 h.c ++ bigEndian 4 h.d ++ bigEndian 4 h.e

/-! ## `soap.go` -/

/-- Go `SOAP`: the data of a SOAP request (`TokenAge` in nanoseconds). -/
structure SOAP where
  Body : Str
  XMLNs : List Str
  User : Str
  Password : Str
  TokenAge : Int

/-- A parsed `url.URL`: its user information and the rest of it. -/
structure URL where
  user : Option (Str × Str)
  rest : Str

/-- The `http.Request` handed to the client. -/
structure HttpRequest where
  method : Str
  url : URL
  header : List (Str × Str)
  body : Bytes

/-- The outside world of `SendRequest`: the outcome of `uuid.NewV4()` (the 16
bytes of the UUID), the text of `time.Now().Add(d).UTC().Format(time.RFC3339)`
for an offset `d`, `url.Parse`, the HTTP exchange (the outcome of
`httpClient.Do`, then that of reading the whole response body) and the XML
decoder. -/
structure SoapEnv where
  newV4 : Except Error Bytes
  timestamp : Int → Str
  urlParse : Str → Except Error URL
  httpDo : HttpRequest → Except Error (Except Error Bytes)
  newMapXml : Bytes → Except Error Map

/-- The text of the token block up to the user name. -/
def securityOpen : Str :=
  "<Security s:mustUnderstand=\"1\" xmlns=\"http://docs.oasis-open.org/wss/2004/01/oasis-200401-wss-wssecurity-secext-1.0.xsd\">\n  \t\t<UsernameToken>\n    \t\t<Username>".toList

/-- The text of the token block between the user name and the digest. -/
def passwordOpen : Str :=
  "</Username>\n    \t\t<Password Type=\"http://docs.oasis-open.org/wss/2004/01/oasis-200401-wss-username-token-profile-1.0#PasswordDigest\">".toList

/-- The text of the token block between the digest and the nonce. -/
def nonceOpen : Str :=
  "</Password>\n    \t\t<Nonce EncodingType=\"http://docs.oasis-open.org/wss/2004/01/oasis-200401-wss-soap-message-security-1.0#Base64Binary\">".toList

/-- The text of the token block between the nonce and the timestamp. -/
def createdOpen : Str :=
  "</Nonce>\n    \t\t<Created xmlns=\"http://docs.oasis-open.org/wss/2004/01/oasis-200401-wss-wssecurity-utility-1.0.xsd\">".toList

/-- The text of the token block after the timestamp. -/
def securityClose : Str := "</Created>\n\t\t</UsernameToken>\n\t</Security>".toList

/-- Go `soap.createUserToken()`.  `string(nonce) + timestamp + soap.Password`
converted back to bytes is the nonce bytes followed by the bytes of the two
strings. -/
def createUserToken (env : SoapEnv) (soap : SOAP) : Str :=
  match env.newV4 with
  | .error _ => []
  | .ok nonce =>
    let nonce64 := base64Encode nonce
    let timestamp := env.timestamp soap.TokenAge
    let token : Bytes := nonce ++ utf8 timestamp ++ utf8 soap.Password
    let shaToken := sha1Sum token
    let shaDigest64 := base64Encode shaToken
    securityOpen ++ soap.User ++ passwordOpen ++ shaDigest64 ++ nonceOpen ++ nonce64 ++
      createdOpen ++ timestamp ++ securityClose

/-- The loop of `createRequest` that appends each namespace after a space. -/
def appendNamespaces : Str → List Str → Str
  | request, [] => request
  | request, ns :: rest => appendNamespaces (request ++ " ".toList ++ ns) rest

/-- The first part of `createRequest`: the XML declaration and the start tag of
the envelope with its namespaces. -/
def rootStartTag (soap : SOAP) : Str :=
  let request := "<?xml version=\"1.0\" encoding=\"UTF-8\"?>".toList
  let request := request ++ "<s:Envelope xmlns:s=\"http://www.w3.org/2003/05/soap-envelope\"".toList
  let request := appendNamespaces request soap.XMLNs
  request ++ ">".toList

/-- The request of `createRequest` as it stands before the clean-up. -/
def buildRequest (env : SoapEnv) (soap : SOAP) : Str :=
  let request := rootStartTag soap
  let request :=
    if soap.User ≠ [] then
      request ++ ("<s:Header>".toList ++ createUserToken env soap ++ "</s:Header>".toList)
    else request
  let request := request ++ ("<s:Body>".toList ++ soap.Body ++ "</s:Body>".toList)
  request ++ "</s:Envelope>".toList

/-- Go `soap.createRequest()`. -/
def createRequest (env : SoapEnv) (soap : SOAP) : Str :=
  cleanMessage (buildRequest env soap)

/-- The part of `SendRequest` that prepares the HTTP request: basic credentials
in the URL when `User` is set, method `POST`, the two headers, the request
document as body. -/
def postRequest (soap : SOAP) (urlXAddr : URL) (request : Str) : HttpRequest :=
  let urlXAddr : URL :=
    if soap.User ≠ [] then { urlXAddr with user := some (soap.User, soap.Password) }
    else urlXAddr
  { method := "POST".toList, url := urlXAddr,
    header := [("Content-Type".toList, "application/soap+xml".toList),
      ("Charset".toList, "utf-8".toList)],
    body := utf8 request }

/-- Go `soap.SendRequest(xaddr)`: the decoded response (`none` for a nil map)
and the error. -/
def SendRequest (env : SoapEnv) (soap : SOAP) (xaddr : Str) : Option Map × Option Error :=
  let request := createRequest env soap
  match env.urlParse xaddr with
  | .error err => (none, some err)
  | .ok urlXAddr =>
    match env.httpDo (postRequest soap urlXAddr request) with
    | .error err => (none, some err)
    | .ok (.error err) => (none, some err)
    | .ok (.ok responseBody) =>
      match env.newMapXml responseBody with
      | .error err => (none, some err)
      | .ok mapXML =>
        let fault := (ValueForPathString mapXML "Envelope.Body.Fault.Reason.Text.#text".toList).1
        if fault ≠ [] then (none, some (.errorsNew fault)) else (some mapXML, none)

/-! ## Sample inputs -/

/-- The decoded form of a probe match: `RelatesTo` in the header and the given
children of `ProbeMatch` in the body. -/
def probeMatchTree (relatesTo : String) (fields : List (Str × Val)) : Map :=
  [("Envelope".toList, .map
    [("Header".toList, .map [("RelatesTo".toList, .str relatesTo.toList)]),
     ("Body".toList, .map [("ProbeMatches".toList, .map
        [("ProbeMatch".toList, .map fields)])])])]

/-- The children of `ProbeMatch` for an endpoint address, scopes and XAddrs. -/
def probeMatchFields (address scopes xAddrs : String) : List (Str × Val) :=
  [("EndpointReference".toList, .map [("Address".toList, .str address.toList)]),
   ("Scopes".toList, .str scopes.toList),
   ("XAddrs".toList, .str xAddrs.toList)]

/-- The response of the spec's scenario, related to the probe `uuid:abc`. -/
def frontDoorTree : Map :=
  probeMatchTree "uuid:abc" (probeMatchFields "urn:uuid:dev1"
    "onvif://www.onvif.org/name/Front_Door other://x"
    "http://10.0.0.5/onvif/device_service http://10.0.0.6/x")

/-- The same response, related to another probe. -/
def unrelatedTree : Map :=
  probeMatchTree "uuid:other" (probeMatchFields "urn:uuid:dev2"
    "onvif://www.onvif.org/name/Back_Door" "http://10.0.0.7/onvif/device_service")

/-- A related response without an `XAddrs` element. -/
def noXAddrsTree : Map :=
  probeMatchTree "uuid:abc"
    [("EndpointReference".toList, .map [("Address".toList, .str "urn:uuid:dev3".toList)]),
     ("Scopes".toList, .str "onvif://www.onvif.org/name/Hall".toList)]

/-- A related response whose `XAddrs` element is empty. -/
def emptyXAddrsTree : Map :=
  probeMatchTree "uuid:abc" (probeMatchFields "urn:uuid:dev3"
    "onvif://www.onvif.org/name/Hall" "")

/-- A related response whose endpoint address holds `urn:uuid:` further in. -/
def innerUrnTree : Map :=
  probeMatchTree "uuid:abc" (probeMatchFields "http://cam/urn:uuid:dev4" ""
    "http://10.0.0.8/onvif/device_service")

/-- The device read from `frontDoorTree`. -/
def frontDoor : Device :=
  ⟨"dev1".toList, "Front Door".toList, "http://10.0.0.5/onvif/device_service".toList⟩

/-- A decoder given by a table: the datagram `[1]` decodes to `frontDoorTree`,
`[2]` to `unrelatedTree`, `[3]` to `noXAddrsTree`, `[4]` to `emptyXAddrsTree`,
`[5]` to `innerUrnTree`, and nothing else is well-formed XML. -/
def sampleDecoder : Bytes → Except Error Map
  | [1] => .ok frontDoorTree
  | [2] => .ok unrelatedTree
  | [3] => .ok noXAddrsTree
  | [4] => .ok emptyXAddrsTree
  | [5] => .ok innerUrnTree
  | _ => .error (.external false "xml syntax error".toList)

/-- A session whose set-up succeeds, with request identifier `uuid:abc` and the
given read outcomes. -/
def sampleSession (reads : List Recv) : Session :=
  { newV4 := .ok "abc".toList, resolveLocal := none, resolveMulticast := none,
    listenUDP := none, setDeadline := none, writeToUDP := fun _ => none, reads := reads }

/-- A host with a loopback interface and two IPv4 interfaces.  On `10.0.0.2`
the related response and an unrelated one arrive before the deadline; on
`10.0.0.3` the related response is followed by a datagram that is not XML. -/
def sampleEnv : DiscoveryEnv :=
  { interfaceAddrs := .ok
      [⟨true, true, false, true, "127.0.0.1".toList⟩,
       ⟨true, false, false, true, "10.0.0.2".toList⟩,
       ⟨true, false, false, true, "10.0.0.3".toList⟩],
    session := fun ipAddr _ =>
      if ipAddr = "10.0.0.2".toList then sampleSession [.datagram [1], .datagram [2]]
      else sampleSession [.datagram [1], .datagram [9], .datagram [1]],
    newMapXml := sampleDecoder }

/-- A host with one IPv4 interface, on which the related response arrives and
then the deadline passes. -/
def quietEnv : DiscoveryEnv :=
  { interfaceAddrs := .ok [⟨true, false, false, true, "10.0.0.2".toList⟩],
    session := fun _ _ =>
      sampleSession [.datagram [1], .failure (.external true "i/o timeout".toList)],
    newMapXml := sampleDecoder }

/-- A decoded response without fault. -/
def okResponseTree : Map :=
  [("Envelope".toList, .map [("Body".toList, .map
    [("GetHostnameResponse".toList, .map [("Name".toList, .str "cam".toList)])])])]

/-- A decoded SOAP fault whose `Text` element has the given decoded form. -/
def faultTree (text : Val) : Map :=
  [("Envelope".toList, .map [("Body".toList, .map [("Fault".toList, .map
    [("Code".toList, .map [("Value".toList, .str "s:Sender".toList)]),
     ("Reason".toList, .map [("Text".toList, text)])])])])]

/-- The decoded form of `<Text xml:lang="en">Sender not authorized</Text>`. -/
def textWithLang : Val :=
  .map [("-lang".toList, .str "en".toList), ("#text".toList, .str "Sender not authorized".toList)]

/-- The decoded form of `<Text>Sender not authorized</Text>`. -/
def textPlain : Val := .str "Sender not authorized".toList

/-- A decoder given by a table: the body `[1]` decodes to `okResponseTree`,
`[2]` to the fault with `textWithLang`, `[3]` to the fault with `textPlain`. -/
def soapDecoder : Bytes → Except Error Map
  | [1] => .ok okResponseTree
  | [2] => .ok (faultTree textWithLang)
  | [3] => .ok (faultTree textPlain)
  | _ => .error (.external false "xml syntax error".toList)

/-- A world in which the random source gives `newV4`, the clock text is
`2024-01-02T03:04:05Z`, every address parses, and the device answers every
request with `response`. -/
def sampleSoapEnv (newV4 : Except Error Bytes) (response : Bytes) : SoapEnv :=
  { newV4 := newV4, timestamp := fun _ => "2024-01-02T03:04:05Z".toList,
    urlParse := fun s => .ok ⟨none, s⟩, httpDo := fun _ => .ok (.ok response),
    newMapXml := soapDecoder }

/-- An unauthenticated request. -/
def anonymousSoap : SOAP :=
  { Body := "<tds:GetHostname/>".toList, XMLNs := ["xmlns:tds=\"http://www.onvif.org/ver10/device/wsdl\"".toList],
    User := [], Password := [], TokenAge := 0 }

/-- An authenticated request. -/
def adminSoap : SOAP :=
  { Body := "<tds:GetHostname/>".toList, XMLNs := ["xmlns:tds=\"http://www.onvif.org/ver10/device/wsdl\"".toList],
    User := "admin".toList, Password := "pw".toList, TokenAge := 0 }

/-- The sixteen bytes `0, 1, ..., 15`. -/
def sampleNonce : Bytes := [0, 1, 2, 3, 4, 5, 6, 7, 8, 9, 10, 11, 12, 13, 14, 15]

/-- An authenticated request whose body is laid out over several lines, with
a tab and two spaces inside its text, and whose namespace declaration has a
space inside its value. -/
def messySoap : SOAP :=
  { Body := "<a>\n  <b>x \t y</b>\n</a>".toList, XMLNs := ["xmlns:t=\"urn:x y\"".toList],
    User := "admin".toList, Password := "pw".toList, TokenAge := 0 }

/-- An unauthenticated request whose body has two spaces inside its text. -/
def spacedSoap : SOAP :=
  { Body := "<a>x  y</a>".toList, XMLNs := [], User := [], Password := [], TokenAge := 0 }

/-- The document of `adminSoap` with an empty header section. -/
def emptyHeaderDocument : Str :=
  "<?xml version=\"1.0\" encoding=\"UTF-8\"?><s:Envelope xmlns:s=\"http://www.w3.org/2003/05/soap-envelope\" xmlns:tds=\"http://www.onvif.org/ver10/device/wsdl\"><s:Header></s:Header><s:Body><tds:GetHostname/></s:Body></s:Envelope>".toList

/-- A device that answers `[1]` to a `POST` of exactly the document
`expected`, and refuses any other request. -/
def strictDevice (expected : Str) (req : HttpRequest) : Except Error (Except Error Bytes) :=
  if req.method = "POST".toList ∧ req.body = utf8 expected then .ok (.ok [1])
  else .error (.external false "unexpected request".toList)

/-- A world in which the random source fails and the device accepts only
`emptyHeaderDocument`. -/
def noRandomEnv : SoapEnv :=
  { newV4 := .error (.external false "unexpected EOF".toList),
    timestamp := fun _ => "2024-01-02T03:04:05Z".toList,
    urlParse := fun s => .ok ⟨none, s⟩, httpDo := strictDevice emptyHeaderDocument,
    newMapXml := soapDecoder }

/-! ## Predicates used in the statements -/

/-- The receive loop goes on after this datagram: reading it gave no error, or
the sentinel `errWrongDiscoveryResponse`. -/
def Kept (newMapXml : Bytes → Except Error Map) (requestID : Str) (buffer : Bytes) : Prop :=
  (readDiscoveryResponse newMapXml requestID buffer).2 = none ∨
    (readDiscoveryResponse newMapXml requestID buffer).2 = some .errWrongDiscoveryResponse

instance (newMapXml : Bytes → Except Error Map) (requestID : Str) (buffer : Bytes) :
    Decidable (Kept newMapXml requestID buffer) := by
  unfold Kept; infer_instance

/-- The reads left when the deadline passes: none, or a failed read that is a
timeout. -/
def EndsByTimeout : List Recv → Prop
  | [] => True
  | .failure err :: _ => err.isTimeout = true
  | .datagram _ :: _ => False

/-- The element reached from `v` along `keys`, each key naming a child that
occurs once (a map entry). -/
def descend : List Str → Val → Option Val
  | [], v => some v
  | key :: keys, .map kvs =>
    match kvs.lookup key with
    | some v => descend keys v
    | none => none
  | _ :: _, _ => none

/-- The token block in the words of the spec: a `Security`/`UsernameToken`
block with `Username`, `Password` (digest and type attribute), `Nonce` (base64
and encoding attribute) and `Created`, laid out as in the source. -/
def usernameToken (username digest nonce created : Str) : Str :=
  securityOpen ++ username ++ passwordOpen ++ digest ++ nonceOpen ++ nonce ++
    createdOpen ++ created ++ securityClose

/-- What the scan for `\>\s+\<` writes while it reads `x` from state `st`
(whitespace still pending at the end of `x` is not part of it). -/
def tagOut : Option Str → Str → Str
  | _, [] => []
  | st, c :: cs => (tagStep st c).1 ++ tagOut (tagStep st c).2 cs

/-- The state of the scan for `\>\s+\<` after it has read `x` from state `st`. -/
def tagState : Option Str → Str → Option Str
  | st, [] => st
  | st, c :: cs => tagState (tagStep st c).2 cs

/-- The state of the scan for `\s+` after it has read `x` from state `b`. -/
def spaceState : Bool → Str → Bool
  | b, [] => b
  | _, c :: cs => spaceState (isSpace c) cs

/-- The two substitutions, each started in a given state of its scan. -/
def cleanFrom (st : Option Str) (b : Bool) (s : Str) : Str :=
  replaceSpacesFrom b (replaceTagGapsFrom st s)

/-- What the clean-up makes of a text `x` that stands right after a `>` and
right before a `<`: element content between two tags. -/
def cleanInner (x : Str) : Str := replaceSpacesFrom false (tagOut (some []) x)

/-- A piece of markup: it starts with `<` and ends with `>`. -/
def IsChunk (l : Str) : Prop := l.head? = some '<' ∧ l.getLast? = some '>'

instance (l : Str) : Decidable (IsChunk l) := by
  unfold IsChunk; infer_instance

/-- The state of the scan for `\>\s+\<` right after a character that is not
whitespace. -/
def afterChar (c : Char) : Option Str := if c = '>' then some [] else none

/-- The last character of `prev :: x`. -/
def lastOr : Char → Str → Char
  | prev, [] => prev
  | _, c :: cs => lastOr c cs

/-- The check behind `Tidy`, for a text `x` that follows the character `prev`:
every whitespace character of `x` is a single space that is followed by a
character other than whitespace and does not stand between `>` and `<`. -/
def tidyAfter : Char → Str → Bool
  | _, [] => true
  | _, [c] => !isSpace c
  | prev, c :: d :: rest =>
    if c = ' ' then !isSpace d && !(prev = '>' && d = '<') && tidyAfter d rest
    else !isSpace c && tidyAfter c (d :: rest)

/-- A text whose only whitespace is single space characters, none of them first
or last in the text and none directly between a `>` and a `<`. -/
def Tidy (x : Str) : Prop :=
  (∀ c ∈ x, isSpace c = true → c = ' ') ∧ x.head? ≠ some ' ' ∧ x.getLast? ≠ some ' ' ∧
    ¬ [' ', ' '] <:+: x ∧ ¬ ['>', ' ', '<'] <:+: x

instance (x : Str) : Decidable (Tidy x) := by
  unfold Tidy; infer_instance

/-- Whether the first character after the whitespace at the head of `s` is a
`<`. -/
def gapAhead (s : Str) : Bool := decide ((s.dropWhile isSpace).head? = some '<')

/-- The clean-up in the words of the amended claim, as one reading of the
document; `prev` is the character written last (a space when a whitespace run
has just been replaced).  A character other than whitespace is kept.  A
whitespace character whose run stands directly between a `>` and a `<` is
dropped.  Of any other whitespace run the first character is written as one
space and the others are dropped. -/
def cleanSpec : Option Char → Str → Str
  | _, [] => []
  | prev, c :: cs =>
    if isSpace c then
      if prev = some '>' ∧ gapAhead cs = true then cleanSpec prev cs
      else if prev = some ' ' then cleanSpec prev cs
      else ' ' :: cleanSpec (some ' ') cs
    else c :: cleanSpec (some c) cs

/-- The request before the clean-up, up to and including `<s:Body>`. -/
def bodyLead (env : SoapEnv) (soap : SOAP) : Str :=
  (if soap.User ≠ [] then
    rootStartTag soap ++ ("<s:Header>".toList ++ createUserToken env soap ++ "</s:Header>".toList)
  else rootStartTag soap) ++ "<s:Body>".toList

/-- Every set-up step of the session succeeds and the request identifier is
built from `uuid`. -/
def Session.Ready (w : Session) (uuid : Str) : Prop :=
  w.newV4 = .ok uuid ∧ w.resolveLocal = none ∧ w.resolveMulticast = none ∧
    w.listenUDP = none ∧ w.setDeadline = none ∧ ∀ request, w.writeToUDP request = none

/-- The name announced by a scopes field, in the words of the spec: the first
space-separated token that starts with the name marker, without the marker and
with every underscore turned into a space; empty when there is no such token. -/
def nameOfScopes (scopes : Str) : Str :=
  match (stringsSplit scopes " ".toList).find? (fun t => nameScope.isPrefixOf t) with
  | some t => (t.drop nameScope.length).map (fun c => if c = '_' then ' ' else c)
  | none => []

/-! ## Properties of the `strings` functions -/

theorem splitAux_space_head (cur s : Str) :
    splitAux [' '] 0 cur s =
      (cur ++ s.takeWhile (· ≠ ' ')) :: (splitAux [' '] 0 cur s).tail := by
  induction s generalizing cur with
  | nil => simp [splitAux]
  | cons c cs ih =>
    by_cases hc : c = ' '
    · subst hc; simp [splitAux, List.isPrefixOf]
    · have h1 : List.isPrefixOf [' '] (c :: cs) = false := by
        simp [List.isPrefixOf]; exact fun h => hc h.symm
      rw [splitAux, if_neg (by simp [h1])]
      rw [ih (cur ++ [c])]
      simp [List.takeWhile, hc]

theorem stringsSplit_space (s : Str) :
    ∃ rest, stringsSplit s " ".toList = s.takeWhile (· ≠ ' ') :: rest := by
  refine ⟨(splitAux [' '] 0 [] s).tail, ?_⟩
  have h := splitAux_space_head [] s
  simpa [stringsSplit] using h

theorem replaceAux_exhausted (old new : Str) (s : Str) :
    replaceAux old new 0 (some 0) s = s := by
  induction s with
  | nil => simp [replaceAux]
  | cons c cs ih => simp [replaceAux, ih]

theorem replaceAux_skip (old new : Str) (n : Option Nat) (xs s : Str) :
    replaceAux old new xs.length n (xs ++ s) = replaceAux old new 0 n s := by
  induction xs with
  | nil => simp
  | cons x xs ih => simpa [replaceAux] using ih

theorem stringsReplace_leading (old rest : Str) (h : old ≠ []) :
    stringsReplace (old ++ rest) old [] 1 = rest := by
  cases old with
  | nil => exact absurd rfl h
  | cons o os =>
    have hp : List.isPrefixOf (o :: os) (o :: (os ++ rest)) = true := by
      rw [List.isPrefixOf_iff_prefix]; exact ⟨rest, rfl⟩
    simp only [stringsReplace]
    rw [if_neg (by simp), if_neg (by simp)]
    simp only [List.cons_append, replaceAux]
    rw [if_pos ⟨by simp, hp⟩]
    have := replaceAux_skip (o :: os) [] (some 0) os rest
    simpa [replaceAux_exhausted] using this

theorem replaceAux_underscore (s : Str) :
    replaceAux ['_'] [' '] 0 none s = s.map (fun c => if c = '_' then ' ' else c) := by
  induction s with
  | nil => simp [replaceAux]
  | cons c cs ih =>
    by_cases hc : c = '_'
    · subst hc
      simp [replaceAux, List.isPrefixOf, ih]
    · have h1 : List.isPrefixOf ['_'] (c :: cs) = false := by
        simp [List.isPrefixOf]; exact fun h => hc h.symm
      rw [replaceAux, if_neg (by simp [h1])]
      simp [ih, hc]

theorem stringsReplace_underscore (s : Str) :
    stringsReplace s "_".toList " ".toList (-1) =
      s.map (fun c => if c = '_' then ' ' else c) := by
  have := replaceAux_underscore s
  simpa [stringsReplace] using this

theorem scanScopes_eq (tokens : List Str) :
    scanScopes tokens =
      match tokens.find? (fun t => nameScope.isPrefixOf t) with
      | some t => (t.drop nameScope.length).map (fun c => if c = '_' then ' ' else c)
      | none => [] := by
  induction tokens with
  | nil => simp [scanScopes]
  | cons t ts ih =>
    by_cases hp : nameScope.isPrefixOf t = true
    · obtain ⟨rest, rfl⟩ := List.isPrefixOf_iff_prefix.mp hp
      have hne : nameScope ≠ [] := by decide
      simp only [scanScopes, stringsHasPrefix, hp, if_true, List.find?_cons_of_pos]
      rw [stringsReplace_leading nameScope rest hne, stringsReplace_underscore]
      simp
    · simp only [Bool.not_eq_true] at hp
      simp [scanScopes, stringsHasPrefix, hp, ih]

/-! ## The response correlator -/

/-- C7: for a decoded response whose `RelatesTo` equals `messageID`,
`readDiscoveryResponse` returns a nil error and a device whose `Name` is the
name announced by the scopes (first space-separated token with the name marker,
marker removed, underscores turned into spaces; empty without such a token) and
whose `XAddr` is the first space-separated entry of `XAddrs`, that is the text
before its first space; `ID` is what `strings.Replace` makes of the address. -/
theorem readDiscoveryResponse_of_related (newMapXml : Bytes → Except Error Map)
    (messageID : Str) (buffer : Bytes) (mapXML : Map)
    (hdec : newMapXml buffer = .ok mapXML)
    (hrel : (ValueForPathString mapXML "Envelope.Header.RelatesTo".toList).1 = messageID) :
    readDiscoveryResponse newMapXml messageID buffer =
      ({ ID := stringsReplace (ValueForPathString mapXML
            "Envelope.Body.ProbeMatches.ProbeMatch.EndpointReference.Address".toList).1
            "urn:uuid:".toList [] 1,
         Name := nameOfScopes (ValueForPathString mapXML
            "Envelope.Body.ProbeMatches.ProbeMatch.Scopes".toList).1,
         XAddr := (ValueForPathString mapXML
            "Envelope.Body.ProbeMatches.ProbeMatch.XAddrs".toList).1.takeWhile (· ≠ ' ') },
        none) := by
  obtain ⟨rest, hsplit⟩ := stringsSplit_space (ValueForPathString mapXML
    "Envelope.Body.ProbeMatches.ProbeMatch.XAddrs".toList).1
  simp only [readDiscoveryResponse, hdec, hrel, ne_eq, not_true_eq_false, if_false, hsplit,
    nameOfScopes, scanScopes_eq]

/-- A decoded response whose `RelatesTo` differs from `messageID` gives the
zero device and the sentinel error. -/
theorem readDiscoveryResponse_of_unrelated (newMapXml : Bytes → Except Error Map)
    (messageID : Str) (buffer : Bytes) (mapXML : Map)
    (hdec : newMapXml buffer = .ok mapXML)
    (hrel : (ValueForPathString mapXML "Envelope.Header.RelatesTo".toList).1 ≠ messageID) :
    readDiscoveryResponse newMapXml messageID buffer =
      (⟨[], [], []⟩, some .errWrongDiscoveryResponse) := by
  simp only [readDiscoveryResponse, hdec, ne_eq, hrel, not_false_eq_true, if_true]

/-! ## The discovery engine -/

theorem readLoop_kept (newMapXml : Bytes → Except Error Map) (requestID : Str)
    (pre : List Bytes) (acc : List Device) (rest : List Recv)
    (h : ∀ b ∈ pre, Kept newMapXml requestID b) :
    readLoop newMapXml requestID acc (pre.map .datagram ++ rest) =
      readLoop newMapXml requestID
        (acc ++ pre.map (fun b => (readDiscoveryResponse newMapXml requestID b).1)) rest := by
  induction pre generalizing acc with
  | nil => simp
  | cons b bs ih =>
    have hb := h b (List.mem_cons_self _ _)
    have hbs : ∀ x ∈ bs, Kept newMapXml requestID x :=
      fun x hx => h x (List.mem_cons_of_mem _ hx)
    rcases hr : readDiscoveryResponse newMapXml requestID b with ⟨device, err⟩
    simp only [Kept, hr] at hb
    have hcond : ¬ (err ≠ none ∧ err ≠ some Error.errWrongDiscoveryResponse) := by
      rcases hb with h1 | h1 <;> simp [h1]
    simp only [List.map_cons, List.cons_append, readLoop, hr, if_neg hcond]
    exact (ih _ hbs).trans (by simp)

theorem readLoop_timeout (newMapXml : Bytes → Except Error Map) (requestID : Str)
    (acc : List Device) (tail : List Recv) (h : EndsByTimeout tail) :
    readLoop newMapXml requestID acc tail = (acc, none) := by
  match tail, h with
  | [], _ => simp [readLoop]
  | .failure err :: _, h => simp only [EndsByTimeout] at h; simp [readLoop, h]

theorem readLoop_abort (newMapXml : Bytes → Except Error Map) (requestID : Str)
    (acc : List Device) (bad : Bytes) (rest : List Recv) (e : Error)
    (he : (readDiscoveryResponse newMapXml requestID bad).2 = some e)
    (hne : e ≠ .errWrongDiscoveryResponse) :
    readLoop newMapXml requestID acc (.datagram bad :: rest) = (acc, some e) := by
  rcases hr : readDiscoveryResponse newMapXml requestID bad with ⟨device, err⟩
  rw [hr] at he
  simp only at he
  subst he
  simp [readLoop, hr, hne]

theorem discoverDevices_ready (newMapXml : Bytes → Except Error Map) (w : Session)
    (uuid : Str) (h : w.Ready uuid) :
    discoverDevices newMapXml w = readLoop newMapXml ("uuid:".toList ++ uuid) [] w.reads := by
  obtain ⟨h1, h2, h3, h4, h5, h6⟩ := h
  simp only [discoverDevices, h1, h2, h3, h4, h5, h6]

theorem discoverAll_ok (env : DiscoveryEnv) (duration : Int) (ips : List Str)
    (acc : List Device) (rest : List Str)
    (h : ∀ a ∈ ips, (discoverDevices env.newMapXml (env.session a duration)).2 = none) :
    discoverAll env duration acc (ips ++ rest) =
      discoverAll env duration
        (acc ++ ips.flatMap fun a => (discoverDevices env.newMapXml (env.session a duration)).1)
        rest := by
  induction ips generalizing acc with
  | nil => simp
  | cons a as ih =>
    have ha := h a (List.mem_cons_self _ _)
    have has : ∀ x ∈ as, (discoverDevices env.newMapXml (env.session x duration)).2 = none :=
      fun x hx => h x (List.mem_cons_of_mem _ hx)
    rcases hr : discoverDevices env.newMapXml (env.session a duration) with ⟨devices, err⟩
    rw [hr] at ha
    simp only at ha
    subst ha
    simp only [List.cons_append, discoverAll, hr]
    exact (ih _ has).trans (by simp [List.flatMap_cons, hr])

theorem discoverAll_abort (env : DiscoveryEnv) (duration : Int) (acc : List Device)
    (ip : Str) (later : List Str) (e : Error)
    (h : (discoverDevices env.newMapXml (env.session ip duration)).2 = some e) :
    discoverAll env duration acc (ip :: later) = ([], some e) := by
  rcases hr : discoverDevices env.newMapXml (env.session ip duration) with ⟨devices, err⟩
  rw [hr] at h
  simp only at h
  subst h
  simp [discoverAll, hr]

/-- C7, at the response of the spec's scenario: the decoder yields
`frontDoorTree`, whose `RelatesTo` is `uuid:abc`, and the device read is
`Device{ID: "dev1", Name: "Front Door", XAddr: "http://10.0.0.5/onvif/device_service"}`. -/
theorem readDiscoveryResponse_of_related_frontDoor :
    sampleDecoder [1] = .ok frontDoorTree ∧
    (ValueForPathString frontDoorTree "Envelope.Header.RelatesTo".toList).1 = "uuid:abc".toList ∧
    readDiscoveryResponse sampleDecoder "uuid:abc".toList [1] = (frontDoor, none) :=
  ⟨rfl, by decide,
    (readDiscoveryResponse_of_related sampleDecoder "uuid:abc".toList [1] frontDoorTree rfl
      (by decide)).trans (by decide)⟩

/-- C1, at a failing input: with request identifier `uuid:abc`, the related
response `[1]` and then the response `[2]`, related to `uuid:other`, arrive
before the deadline.  The second read gives the sentinel error, and still the
returned list has two entries, the second one the zero device. -/
theorem discoverDevices_appends_unrelated :
    readDiscoveryResponse sampleDecoder "uuid:abc".toList [2] =
      (⟨[], [], []⟩, some .errWrongDiscoveryResponse) ∧
    discoverDevices sampleDecoder (sampleSession [.datagram [1], .datagram [2]]) =
      ([frontDoor, ⟨[], [], []⟩], none) := by
  constructor <;> decide

/-- C2, at two failing inputs: a related response without `XAddrs` element
(`[3]`) and one whose `XAddrs` is the empty string (`[4]`).  In both the
service-address text is empty, and `readDiscoveryResponse` returns a nil error
with a device whose `XAddr` is empty. -/
theorem readDiscoveryResponse_empty_xaddrs :
    (ValueForPathString noXAddrsTree
      "Envelope.Body.ProbeMatches.ProbeMatch.XAddrs".toList).1 = [] ∧
    (ValueForPathString emptyXAddrsTree
      "Envelope.Body.ProbeMatches.ProbeMatch.XAddrs".toList).1 = [] ∧
    readDiscoveryResponse sampleDecoder "uuid:abc".toList [3] =
      (⟨"dev3".toList, "Hall".toList, []⟩, none) ∧
    readDiscoveryResponse sampleDecoder "uuid:abc".toList [4] =
      (⟨"dev3".toList, "Hall".toList, []⟩, none) := by
  refine ⟨?_, ?_, ?_, ?_⟩ <;> decide

/-- C8, at a failing input: the endpoint address `http://cam/urn:uuid:dev4` does
not start with `urn:uuid:`, and the `ID` returned is `http://cam/dev4`, not the
address unchanged. -/
theorem readDiscoveryResponse_inner_urn :
    (ValueForPathString innerUrnTree
      "Envelope.Body.ProbeMatches.ProbeMatch.EndpointReference.Address".toList).1 =
      "http://cam/urn:uuid:dev4".toList ∧
    stringsHasPrefix "http://cam/urn:uuid:dev4".toList "urn:uuid:".toList = false ∧
    (readDiscoveryResponse sampleDecoder "uuid:abc".toList [5]).1.ID = "http://cam/dev4".toList ∧
    (readDiscoveryResponse sampleDecoder "uuid:abc".toList [5]).2 = none := by
  refine ⟨?_, ?_, ?_, ?_⟩ <;> decide

/-- C10: discovery as a fold over the eligible addresses and, per address, over
the received datagrams.  (1) When, on a session whose set-up succeeded, the
datagrams `pre` are all kept and the next one makes `readDiscoveryResponse`
return an error `e` other than the sentinel, `discoverDevices` stops there and
returns `e` (with the devices collected so far).  (2) When the reads consist of
kept datagrams and end by the deadline's timeout, `discoverDevices` returns a nil
error and one entry per datagram.  (3) When `discoverDevices` returns an error
`e` on an address and none on the addresses before it, `StartDiscovery` returns
`e` and an empty list.  (4) When `discoverDevices` returns no error on any
eligible address, `StartDiscovery` returns a nil error and the concatenation of
the per-address results. -/
theorem StartDiscovery_abort_or_concat (env : DiscoveryEnv) (duration : Int)
    (addrs : List InterfaceAddr) (haddrs : env.interfaceAddrs = .ok addrs) :
    (∀ (w : Session) (uuid : Str) (pre : List Bytes) (bad : Bytes) (rest : List Recv)
        (e : Error),
        w.Ready uuid → w.reads = pre.map .datagram ++ .datagram bad :: rest →
        (∀ b ∈ pre, Kept env.newMapXml ("uuid:".toList ++ uuid) b) →
        (readDiscoveryResponse env.newMapXml ("uuid:".toList ++ uuid) bad).2 = some e →
        e ≠ .errWrongDiscoveryResponse →
        discoverDevices env.newMapXml w =
          (pre.map (fun b => (readDiscoveryResponse env.newMapXml
            ("uuid:".toList ++ uuid) b).1), some e)) ∧
    (∀ (w : Session) (uuid : Str) (pre : List Bytes) (tail : List Recv),
        w.Ready uuid → w.reads = pre.map .datagram ++ tail →
        (∀ b ∈ pre, Kept env.newMapXml ("uuid:".toList ++ uuid) b) → EndsByTimeout tail →
        discoverDevices env.newMapXml w =
          (pre.map (fun b => (readDiscoveryResponse env.newMapXml
            ("uuid:".toList ++ uuid) b).1), none)) ∧
    (∀ (good : List Str) (ip : Str) (later : List Str) (e : Error),
        ipAddrsOf addrs = good ++ ip :: later →
        (∀ a ∈ good, (discoverDevices env.newMapXml (env.session a duration)).2 = none) →
        (discoverDevices env.newMapXml (env.session ip duration)).2 = some e →
        StartDiscovery env duration = ([], some e)) ∧
    ((∀ a ∈ ipAddrsOf addrs,
        (discoverDevices env.newMapXml (env.session a duration)).2 = none) →
      StartDiscovery env duration =
        ((ipAddrsOf addrs).flatMap fun a =>
          (discoverDevices env.newMapXml (env.session a duration)).1, none)) := by
  refine ⟨?_, ?_, ?_, ?_⟩
  · intro w uuid pre bad rest e hready hreads hkept he hne
    rw [discoverDevices_ready _ _ _ hready, hreads, readLoop_kept _ _ _ _ _ hkept,
      readLoop_abort _ _ _ _ _ _ he hne]
    simp
  · intro w uuid pre tail hready hreads hkept hend
    rw [discoverDevices_ready _ _ _ hready, hreads, readLoop_kept _ _ _ _ _ hkept,
      readLoop_timeout _ _ _ _ hend]
    simp
  · intro good ip later e hsplit hgood hbad
    simp only [StartDiscovery, haddrs, hsplit]
    rw [discoverAll_ok _ _ _ _ _ hgood, discoverAll_abort _ _ _ _ _ _ hbad]
  · intro hall
    simp only [StartDiscovery, haddrs]
    have h := discoverAll_ok env duration (ipAddrsOf addrs) [] [] hall
    simpa [discoverAll] using h

/-- C10, on two sample hosts.  On `sampleEnv` the eligible addresses are
`10.0.0.2` and `10.0.0.3`; the first yields two entries without error, on the
second the related response `[1]` is followed by `[9]`, which is not XML:
`discoverDevices` stops there with the decoder's error and one device, and
`StartDiscovery` returns that error with an empty list.  On `quietEnv` the one
session ends by timeout and `StartDiscovery` returns its device. -/
theorem StartDiscovery_abort_or_concat_samples :
    discoverDevices sampleDecoder
        (sampleSession [.datagram [1], .datagram [9], .datagram [1]]) =
      ([frontDoor], some (.external false "xml syntax error".toList)) ∧
    StartDiscovery sampleEnv 5 = ([], some (.external false "xml syntax error".toList)) ∧
    StartDiscovery quietEnv 5 = ([frontDoor], none) := by
  refine ⟨?_, ?_, ?_⟩
  · have h := (StartDiscovery_abort_or_concat sampleEnv 5 _ rfl).1
      (sampleSession [.datagram [1], .datagram [9], .datagram [1]]) "abc".toList
      [[1]] [9] [.datagram [1]] (.external false "xml syntax error".toList)
      ⟨rfl, rfl, rfl, rfl, rfl, fun _ => rfl⟩ rfl (by decide) (by decide) (by decide)
    exact h.trans (by decide)
  · exact (StartDiscovery_abort_or_concat sampleEnv 5 _ rfl).2.2.1
      ["10.0.0.2".toList] "10.0.0.3".toList [] (.external false "xml syntax error".toList)
      (by decide) (by decide) (by decide)
  · exact ((StartDiscovery_abort_or_concat quietEnv 5 _ rfl).2.2.2 (by decide)).trans
      (by decide)

/-! ## The transport -/

theorem valuesForKeyPath_descend (keys more : List Str) (v w : Val)
    (h : descend keys v = some w) :
    valuesForKeyPath (keys ++ more) v = valuesForKeyPath more w := by
  induction keys generalizing v with
  | nil => simp only [descend, Option.some.injEq] at h; subst h; rfl
  | cons key keys ih =>
    cases v with
    | str s => simp [descend] at h
    | list vs => simp [descend] at h
    | map kvs =>
      simp only [descend] at h
      cases hl : kvs.lookup key with
      | none => simp [hl] at h
      | some v1 =>
        simp only [hl] at h
        simp only [List.cons_append, valuesForKeyPath, hl]
        exact ih v1 h

theorem faultPath_keys :
    stringsSplit "Envelope.Body.Fault.Reason.Text.#text".toList ".".toList =
      ["Envelope".toList, "Body".toList, "Fault".toList, "Reason".toList, "Text".toList] ++
        ["#text".toList] := by
  decide

theorem ValueForPathString_fault (mapXML : Map) (textKvs : List (Str × Val)) (text : Str)
    (htext : descend ["Envelope".toList, "Body".toList, "Fault".toList, "Reason".toList,
      "Text".toList] (.map mapXML) = some (.map textKvs))
    (hval : textKvs.lookup "#text".toList = some (.str text)) :
    ValueForPathString mapXML "Envelope.Body.Fault.Reason.Text.#text".toList = (text, none) := by
  have hkeys : ValuesForPath mapXML "Envelope.Body.Fault.Reason.Text.#text".toList =
      [.str text] := by
    simp only [ValuesForPath, faultPath_keys]
    rw [if_neg (by decide), valuesForKeyPath_descend _ _ _ _ htext]
    simp only [valuesForKeyPath, hval]
  simp only [ValueForPathString, hkeys]

/-- C3, as amended: when the exchange succeeds and, in the decoded response,
`Envelope.Body.Fault.Reason.Text` is an element carrying attributes (decoded as
a map, its character data under `#text`) with non-empty text, `SendRequest`
returns a nil map and an error whose message is that text. -/
theorem SendRequest_fault_with_attributes (env : SoapEnv) (soap : SOAP) (xaddr : Str)
    (url : URL) (responseBody : Bytes) (mapXML : Map) (textKvs : List (Str × Val))
    (text : Str)
    (hurl : env.urlParse xaddr = .ok url)
    (hhttp : env.httpDo (postRequest soap url (createRequest env soap)) = .ok (.ok responseBody))
    (hdec : env.newMapXml responseBody = .ok mapXML)
    (htext : descend ["Envelope".toList, "Body".toList, "Fault".toList, "Reason".toList,
      "Text".toList] (.map mapXML) = some (.map textKvs))
    (hval : textKvs.lookup "#text".toList = some (.str text))
    (hne : text ≠ []) :
    SendRequest env soap xaddr = (none, some (.errorsNew text)) ∧
      (Error.errorsNew text).message = text := by
  refine ⟨?_, rfl⟩
  simp only [SendRequest, hurl, hhttp, hdec, ValueForPathString_fault mapXML textKvs text htext hval,
    ne_eq, hne, not_false_eq_true, if_true]

/-- C3 as amended, on the fault `<Text xml:lang="en">Sender not authorized</Text>`. -/
theorem SendRequest_fault_with_attributes_sample :
    SendRequest (sampleSoapEnv (.ok sampleNonce) [2]) adminSoap "http://cam/service".toList =
      (none, some (.errorsNew "Sender not authorized".toList)) :=
  (SendRequest_fault_with_attributes (sampleSoapEnv (.ok sampleNonce) [2]) adminSoap
    "http://cam/service".toList ⟨none, "http://cam/service".toList⟩ [2]
    (faultTree textWithLang)
    [("-lang".toList, .str "en".toList), ("#text".toList, .str "Sender not authorized".toList)]
    "Sender not authorized".toList rfl rfl rfl rfl rfl (by decide)).1

/-- C3, as stated, fails: in the decoded fault `<Text>Sender not authorized</Text>`
the `Text` element has non-empty text content and no attribute; `SendRequest`
returns no error and hands back the parsed envelope. -/
theorem SendRequest_fault_without_attributes :
    descend ["Envelope".toList, "Body".toList, "Fault".toList, "Reason".toList,
      "Text".toList] (.map (faultTree textPlain)) = some (.str "Sender not authorized".toList) ∧
    (SendRequest (sampleSoapEnv (.ok sampleNonce) [3]) adminSoap
      "http://cam/service".toList).2 = none ∧
    (SendRequest (sampleSoapEnv (.ok sampleNonce) [3]) adminSoap
      "http://cam/service".toList).1.isSome = true := by
  refine ⟨rfl, ?_, ?_⟩ <;> decide

/-- C6: when the random source yields `nonce`, the token block made by
`createUserToken` is the `Security`/`UsernameToken` block whose `Password` is
`base64(SHA1(nonce ++ timestamp bytes ++ password bytes))` over the raw nonce
bytes, whose `Nonce` is `base64(nonce)` and whose `Created` is the timestamp
that entered the digest; and two calls that agree on `User`, `Password`, the
nonce and the timestamp give the same block. -/
theorem createUserToken_digest (env : SoapEnv) (soap : SOAP) (nonce : Bytes)
    (hnonce : env.newV4 = .ok nonce) :
    createUserToken env soap =
      usernameToken soap.User
        (base64Encode (sha1Sum
          (nonce ++ utf8 (env.timestamp soap.TokenAge) ++ utf8 soap.Password)))
        (base64Encode nonce) (env.timestamp soap.TokenAge) ∧
    ∀ (env2 : SoapEnv) (soap2 : SOAP), env2.newV4 = .ok nonce →
      env2.timestamp soap2.TokenAge = env.timestamp soap.TokenAge →
      soap2.User = soap.User → soap2.Password = soap.Password →
      createUserToken env2 soap2 = createUserToken env soap := by
  refine ⟨?_, ?_⟩
  · simp only [createUserToken, hnonce, usernameToken]
  · intro env2 soap2 h2 hts hu hp
    simp only [createUserToken, hnonce, h2, hts, hu, hp]

set_option maxRecDepth 1000000 in
/-- C6, on a sample: nonce `0..15`, timestamp `2024-01-02T03:04:05Z`, password
`pw`.  The digest is `VyEYt6zT3gbBBmnuIVct7R2u9RA=` and the nonce
`AAECAwQFBgcICQoLDA0ODw==`. -/
theorem createUserToken_digest_sample :
    createUserToken (sampleSoapEnv (.ok sampleNonce) [1]) adminSoap =
      usernameToken "admin".toList "VyEYt6zT3gbBBmnuIVct7R2u9RA=".toList
        "AAECAwQFBgcICQoLDA0ODw==".toList "2024-01-02T03:04:05Z".toList :=
  ((createUserToken_digest (sampleSoapEnv (.ok sampleNonce) [1]) adminSoap sampleNonce rfl).1).trans
    (by decide)

/-! ## The clean-up of a request -/

theorem replaceTagGapsFrom_append (st : Option Str) (x y : Str) :
    replaceTagGapsFrom st (x ++ y) = tagOut st x ++ replaceTagGapsFrom (tagState st x) y := by
  induction x generalizing st with
  | nil => simp [tagOut, tagState]
  | cons c cs ih => simp [replaceTagGapsFrom, tagOut, tagState, ih]

theorem tagOut_append (st : Option Str) (x y : Str) :
    tagOut st (x ++ y) = tagOut st x ++ tagOut (tagState st x) y := by
  induction x generalizing st with
  | nil => simp [tagOut, tagState]
  | cons c cs ih => simp [tagOut, tagState, ih]

theorem tagState_append (st : Option Str) (x y : Str) :
    tagState st (x ++ y) = tagState (tagState st x) y := by
  induction x generalizing st with
  | nil => simp [tagState]
  | cons c cs ih => simp [tagState, ih]

theorem replaceSpacesFrom_append (b : Bool) (x y : Str) :
    replaceSpacesFrom b (x ++ y) =
      replaceSpacesFrom b x ++ replaceSpacesFrom (spaceState b x) y := by
  induction x generalizing b with
  | nil => simp [replaceSpacesFrom, spaceState]
  | cons c cs ih =>
    by_cases hc : isSpace c = true
    · cases b <;> simp [replaceSpacesFrom, spaceState, hc, ih]
    · simp [replaceSpacesFrom, spaceState, hc, ih]

theorem spaceState_append (b : Bool) (x y : Str) :
    spaceState b (x ++ y) = spaceState (spaceState b x) y := by
  induction x generalizing b with
  | nil => simp [spaceState]
  | cons c cs ih => simp [spaceState, ih]

theorem cleanFrom_append (st : Option Str) (b : Bool) (x y : Str) :
    cleanFrom st b (x ++ y) =
      replaceSpacesFrom b (tagOut st x) ++
        cleanFrom (tagState st x) (spaceState b (tagOut st x)) y := by
  simp [cleanFrom, replaceTagGapsFrom_append, replaceSpacesFrom_append]

theorem tagStep_lt (st : Option Str) : tagStep st '<' = (['<'], none) := by
  cases st with
  | none => simp [tagStep]
  | some ws => by_cases h : ws = [] <;> simp [tagStep, isSpace, h]

theorem tagStep_gt (st : Option Str) : tagStep st '>' = (st.getD [] ++ ['>'], some []) := by
  cases st with
  | none => simp [tagStep]
  | some ws => simp [tagStep, isSpace]

theorem tagStep_nonspace (st : Option Str) (c : Char) (hc : isSpace c = false) :
    ∃ lead, tagStep st c = (lead ++ [c], afterChar c) := by
  cases st with
  | none => exact ⟨[], by simp [tagStep, afterChar]⟩
  | some ws =>
    by_cases h : c = '<' ∧ ws ≠ []
    · refine ⟨[], ?_⟩
      obtain ⟨h1, h2⟩ := h
      subst h1
      simp [tagStep, isSpace, h2, afterChar]
    · exact ⟨ws, by simp only [tagStep, hc, Bool.false_eq_true, if_false, h, afterChar]⟩

theorem tagStep_afterChar (prev c : Char) (hc : isSpace c = false) :
    tagStep (afterChar prev) c = ([c], afterChar c) := by
  by_cases hp : prev = '>'
  · simp [afterChar, hp, tagStep, hc]
  · simp [afterChar, hp, tagStep]

theorem tagOut_chunk (st : Option Str) (l : Str) (h : l.head? = some '<') :
    tagOut st l = tagOut none l ∧ tagState st l = tagState none l := by
  cases l with
  | nil => simp at h
  | cons c cs =>
    simp only [List.head?_cons, Option.some.injEq] at h
    subst h
    simp [tagOut, tagState, tagStep_lt]

theorem replaceSpacesFrom_nonspace (b : Bool) (c : Char) (z : Str) (hc : isSpace c = false) :
    replaceSpacesFrom b (c :: z) = c :: replaceSpacesFrom false z := by
  simp [replaceSpacesFrom, hc]

theorem tagOut_head (l : Str) (h : l.head? = some '<') :
    ∃ w, tagOut none l = '<' :: w := by
  cases l with
  | nil => simp at h
  | cons c cs =>
    simp only [List.head?_cons, Option.some.injEq] at h
    subst h
    exact ⟨tagOut none cs, by simp [tagOut, tagStep]⟩

theorem tagOut_last (st : Option Str) (l : Str) (h : l.getLast? = some '>') :
    tagState st l = some [] ∧ ∃ w, tagOut st l = w ++ ['>'] := by
  obtain ⟨u, rfl⟩ := List.getLast?_eq_some_iff.mp h
  refine ⟨?_, ?_⟩
  · simp [tagState_append, tagState, tagStep_gt]
  · refine ⟨tagOut st u ++ (tagState st u).getD [], ?_⟩
    simp [tagOut_append, tagOut, tagStep_gt]

theorem cleanMessage_chunk (l : Str) (h : IsChunk l) :
    cleanMessage l = replaceSpacesFrom false (tagOut none l) := by
  have h1 := (tagOut_last none l h.2).1
  have h2 := replaceTagGapsFrom_append none l []
  simp only [List.append_nil, h1, replaceTagGapsFrom, Option.getD_some] at h2
  simp [cleanMessage, replaceSpaces, replaceTagGaps, h2]

/-- A piece of markup is cleaned on its own, whatever comes before it, and leaves
both scans in the state that follows a `>`. -/
theorem cleanFrom_chunk (st : Option Str) (b : Bool) (l y : Str) (h : IsChunk l) :
    cleanFrom st b (l ++ y) = cleanMessage l ++ cleanFrom (some []) false y := by
  obtain ⟨w, hw⟩ := tagOut_head l h.1
  obtain ⟨hst, v, hv⟩ := tagOut_last none l h.2
  have hsp : isSpace '<' = false := by decide
  have hgt : isSpace '>' = false := by decide
  rw [cleanFrom_append, cleanMessage_chunk l h, (tagOut_chunk st l h.1).1,
    (tagOut_chunk st l h.1).2, hst]
  congr 1
  · rw [hw, replaceSpacesFrom_nonspace b _ _ hsp, replaceSpacesFrom_nonspace false _ _ hsp]
  · rw [hv, spaceState_append]
    simp [spaceState, hgt]

theorem cleanFrom_nil (st : Option Str) (b : Bool) (h : st.getD [] = []) :
    cleanFrom st b [] = [] := by
  simp [cleanFrom, replaceTagGapsFrom, h, replaceSpacesFrom]

/-- Element content between two pieces of markup is cleaned on its own. -/
theorem cleanFrom_inner (x l y : Str) (h : IsChunk l) :
    cleanFrom (some []) false (x ++ (l ++ y)) =
      cleanInner x ++ (cleanMessage l ++ cleanFrom (some []) false y) := by
  rw [cleanFrom_append, cleanFrom_chunk _ _ _ _ h, cleanInner]

theorem tagOut_cons (st : Option Str) (c : Char) (cs : Str) :
    tagOut st (c :: cs) = (tagStep st c).1 ++ tagOut (tagStep st c).2 cs := rfl

theorem tagState_cons (st : Option Str) (c : Char) (cs : Str) :
    tagState st (c :: cs) = tagState (tagStep st c).2 cs := rfl

theorem tidyAfter_tags (prev : Char) (x : Str) (hx : tidyAfter prev x = true) :
    tagOut (afterChar prev) x = x ∧ tagState (afterChar prev) x = afterChar (lastOr prev x) := by
  induction prev, x using tidyAfter.induct with
  | case1 prev => simp [tagOut, tagState, lastOr]
  | case2 prev c =>
    simp only [tidyAfter, Bool.not_eq_true', ] at hx
    simp [tagOut, tagState, lastOr, tagStep_afterChar prev c hx]
  | case3 prev d rest ih =>
    simp only [tidyAfter, if_true, Bool.and_eq_true, Bool.not_eq_true', Bool.and_eq_false_imp,
      decide_eq_true_eq, decide_eq_false_iff_not] at hx
    obtain ⟨⟨hd, hgap⟩, hrest⟩ := hx
    obtain ⟨ih1, ih2⟩ := ih hrest
    have hstep : tagOut (afterChar prev) (' ' :: d :: rest) = ' ' :: d :: tagOut (afterChar d) rest ∧
        tagState (afterChar prev) (' ' :: d :: rest) = tagState (afterChar d) rest := by
      by_cases hp : prev = '>'
      · have hd2 : d ≠ '<' := hgap hp
        have h0 : afterChar prev = some [] := by simp [afterChar, hp]
        have h1 : tagStep (some []) ' ' = ([], some [' ']) := by decide
        have h2 : tagStep (some [' ']) d = ([' ', d], afterChar d) := by
          simp only [tagStep, hd, Bool.false_eq_true, if_false, hd2, false_and, afterChar]
          simp
        rw [tagOut_cons, tagState_cons, h0, h1, tagOut_cons, tagState_cons, h2]
        simp
      · have h0 : afterChar prev = none := by simp [afterChar, hp]
        have h1 : tagStep none ' ' = ([' '], none) := by decide
        have h2 : tagStep none d = ([d], afterChar d) := by simp [tagStep, afterChar]
        rw [tagOut_cons, tagState_cons, h0, h1, tagOut_cons, tagState_cons, h2]
        simp
    rw [hstep.1, hstep.2, ih1, ih2]
    simp [lastOr]
  | case4 prev c d rest hc ih =>
    simp only [tidyAfter, hc, if_false, Bool.and_eq_true, Bool.not_eq_true'] at hx
    obtain ⟨hcs, hrest⟩ := hx
    obtain ⟨ih1, ih2⟩ := ih hrest
    rw [tagOut_cons, tagState_cons, tagStep_afterChar prev c hcs]
    simp only [ih1, ih2, lastOr, List.singleton_append, and_self]

theorem tidyAfter_spaces (prev : Char) (x : Str) (hx : tidyAfter prev x = true) :
    replaceSpacesFrom false x = x ∧ spaceState false x = false := by
  induction prev, x using tidyAfter.induct with
  | case1 prev => simp [replaceSpacesFrom, spaceState]
  | case2 prev c =>
    simp only [tidyAfter, Bool.not_eq_true'] at hx
    simp [replaceSpacesFrom, spaceState, hx]
  | case3 prev d rest ih =>
    simp only [tidyAfter, if_true, Bool.and_eq_true, Bool.not_eq_true', Bool.and_eq_false_imp,
      decide_eq_true_eq, decide_eq_false_iff_not] at hx
    obtain ⟨⟨hd, _⟩, hrest⟩ := hx
    obtain ⟨ih1, ih2⟩ := ih hrest
    have hs : isSpace ' ' = true := by decide
    simp [replaceSpacesFrom, spaceState, hs, hd, ih1, ih2]
  | case4 prev c d rest hc ih =>
    simp only [tidyAfter, hc, if_false, Bool.and_eq_true, Bool.not_eq_true'] at hx
    obtain ⟨hcs, hrest⟩ := hx
    obtain ⟨ih1, ih2⟩ := ih hrest
    rw [replaceSpacesFrom_nonspace false c _ hcs, ih1]
    simp only [spaceState, hcs, true_and]
    exact ih2

theorem tidyAfter_of (prev : Char) (x : Str)
    (h1 : ∀ c ∈ x, isSpace c = true → c = ' ') (h2 : x.getLast? ≠ some ' ')
    (h3 : ¬ [' ', ' '] <:+: x) (h4 : ¬ ['>', ' ', '<'] <:+: prev :: x) :
    tidyAfter prev x = true := by
  induction prev, x using tidyAfter.induct with
  | case1 prev => simp [tidyAfter]
  | case2 prev c =>
    simp only [tidyAfter, Bool.not_eq_true']
    cases hc : isSpace c with
    | false => rfl
    | true =>
      have := h1 c (List.mem_singleton.mpr rfl) hc
      subst this
      simp at h2
  | case3 prev d rest ih =>
    have hd : isSpace d = false := by
      cases hc : isSpace d with
      | false => rfl
      | true =>
        have := h1 d (by simp) hc
        subst this
        exact absurd (List.IsPrefix.isInfix ⟨rest, rfl⟩) h3
    have hgap : ¬ (prev = '>' ∧ d = '<') := by
      rintro ⟨rfl, rfl⟩
      exact h4 (List.IsPrefix.isInfix ⟨rest, rfl⟩)
    have hrest : tidyAfter d rest = true := by
      apply ih
      · intro c hc; exact h1 c (by simp [hc])
      · cases rest with
        | nil => simp
        | cons e r => simpa [List.getLast?_cons_cons] using h2
      · intro hin; exact h3 (List.infix_cons (List.infix_cons hin))
      · intro hin; exact h4 (List.infix_cons (List.infix_cons hin))
    simp only [tidyAfter, if_true, Bool.and_eq_true, Bool.not_eq_true', hd, hrest, and_true,
      true_and]
    simp only [Bool.and_eq_false_imp, decide_eq_true_eq, decide_eq_false_iff_not]
    exact fun hp hd2 => hgap ⟨hp, hd2⟩
  | case4 prev c d rest hc ih =>
    have hcs : isSpace c = false := by
      cases h : isSpace c with
      | false => rfl
      | true => exact absurd (h1 c (by simp) h) hc
    have hrest : tidyAfter c (d :: rest) = true := by
      apply ih
      · intro e he; exact h1 e (by simp [he])
      · simpa [List.getLast?_cons_cons] using h2
      · intro hin; exact h3 (List.infix_cons hin)
      · intro hin; exact h4 (List.infix_cons hin)
    simp [tidyAfter, hc, hcs, hrest]

theorem Tidy.cases (x : Str) (h : Tidy x) :
    x = [] ∨ ∃ c rest, x = c :: rest ∧ isSpace c = false ∧ tidyAfter c rest = true := by
  obtain ⟨h1, h2, h3, h4, h5⟩ := h
  cases x with
  | nil => exact Or.inl rfl
  | cons c rest =>
    refine Or.inr ⟨c, rest, rfl, ?_, ?_⟩
    · cases hc : isSpace c with
      | false => rfl
      | true =>
        have := h1 c (by simp) hc
        subst this
        simp at h2
    · apply tidyAfter_of
      · intro e he; exact h1 e (by simp [he])
      · cases rest with
        | nil => simp
        | cons e r => simpa [List.getLast?_cons_cons] using h3
      · intro hin; exact h4 (List.infix_cons hin)
      · exact h5

/-- Tidy element content comes out of the clean-up unchanged. -/
theorem cleanInner_of_tidy (x : Str) (h : Tidy x) : cleanInner x = x := by
  rcases Tidy.cases x h with rfl | ⟨c, rest, rfl, hc, hrest⟩
  · simp [cleanInner, tagOut, replaceSpacesFrom]
  · have h0 : tagStep (some []) c = ([c], afterChar c) := tagStep_afterChar '>' c hc
    rw [cleanInner, tagOut_cons, h0, (tidyAfter_tags c rest hrest).1]
    simp only [List.singleton_append]
    rw [replaceSpacesFrom_nonspace false c _ hc, (tidyAfter_spaces c rest hrest).1]

/-- A tidy text comes out of the clean-up unchanged wherever it stands. -/
theorem tidy_infix_cleanMessage (x pre post : Str) (h : Tidy x) :
    x <:+: cleanMessage (pre ++ x ++ post) := by
  rcases Tidy.cases x h with rfl | ⟨c, rest, rfl, hc, hrest⟩
  · exact List.nil_infix
  · obtain ⟨lead, hlead⟩ := tagStep_nonspace (tagState none pre) c hc
    have e1 : replaceTagGaps (pre ++ (c :: rest) ++ post) =
        (tagOut none pre ++ lead) ++
          (c :: (rest ++ replaceTagGapsFrom (afterChar (lastOr c rest)) post)) := by
      rw [replaceTagGaps, List.append_assoc, replaceTagGapsFrom_append, List.cons_append,
        replaceTagGapsFrom, hlead, replaceTagGapsFrom_append, (tidyAfter_tags c rest hrest).1,
        (tidyAfter_tags c rest hrest).2]
      simp
    rw [cleanMessage, replaceSpaces, e1, replaceSpacesFrom_append,
      replaceSpacesFrom_nonspace _ c _ hc, replaceSpacesFrom_append,
      replaceSpacesFrom_append false rest, (tidyAfter_spaces c rest hrest).1]
    exact ⟨replaceSpacesFrom false (tagOut none pre) ++
      replaceSpacesFrom (spaceState false (tagOut none pre)) lead,
      replaceSpacesFrom (spaceState false rest)
        (replaceTagGapsFrom (afterChar (lastOr c rest)) post), by simp⟩

theorem tidy_of_nospace (x : Str) (h : ∀ c ∈ x, isSpace c = false) : Tidy x := by
  have hsp : isSpace ' ' = true := by decide
  have hno : ' ' ∉ x := fun hin => by simpa [hsp] using h ' ' hin
  refine ⟨?_, ?_, ?_, ?_, ?_⟩
  · intro c hc hs; rw [h c hc] at hs; exact absurd hs (by simp)
  · intro hh; exact hno (List.mem_of_mem_head? hh)
  · intro hh; exact hno (List.mem_of_mem_getLast? hh)
  · intro hin; exact hno (hin.subset (by simp))
  · intro hin; exact hno (hin.subset (by simp))

theorem base64Char_nospace (n : Nat) : isSpace (base64Char n) = false := by
  by_cases hn : n < 64
  · have : ∀ m < 64, isSpace (base64Char m) = false := by decide
    exact this n hn
  · have hlen : base64Alphabet.length ≤ n := by
      have : base64Alphabet.length = 64 := by decide
      omega
    simp only [base64Char, List.getD_eq_default _ _ hlen]
    decide

theorem base64Encode_nospace (bs : Bytes) : ∀ c ∈ base64Encode bs, isSpace c = false := by
  induction bs using base64Encode.induct with
  | case1 => simp [base64Encode]
  | case2 a =>
    have he : isSpace '=' = false := by decide
    simp [base64Encode, base64Char_nospace, he]
  | case3 a b =>
    have he : isSpace '=' = false := by decide
    simp [base64Encode, base64Char_nospace, he]
  | case4 a b c rest ih =>
    intro d hd
    simp only [base64Encode, List.mem_cons] at hd
    rcases hd with rfl | rfl | rfl | rfl | hd
    · exact base64Char_nospace _
    · exact base64Char_nospace _
    · exact base64Char_nospace _
    · exact base64Char_nospace _
    · exact ih d hd

theorem cleanInner_base64 (bs : Bytes) : cleanInner (base64Encode bs) = base64Encode bs :=
  cleanInner_of_tidy _ (tidy_of_nospace _ (base64Encode_nospace bs))

theorem filter_of_spaces (l : Str) (h : ∀ d ∈ l, isSpace d = true) :
    l.filter (fun c => !isSpace c) = [] := by
  rw [List.filter_eq_nil_iff]
  intro d hd
  simp [h d hd]

theorem tagStep_filter (st : Option Str) (c : Char) (hst : ∀ d ∈ st.getD [], isSpace d = true) :
    (tagStep st c).1.filter (fun c => !isSpace c) = [c].filter (fun c => !isSpace c) ∧
      ∀ d ∈ ((tagStep st c).2).getD [], isSpace d = true := by
  cases st with
  | none =>
    refine ⟨by simp [tagStep], ?_⟩
    by_cases hc : c = '>' <;> simp [tagStep, hc]
  | some ws =>
    simp only [Option.getD_some] at hst
    by_cases hs : isSpace c = true
    · refine ⟨by simp [tagStep, hs], ?_⟩
      intro d hd
      simp only [tagStep, hs, if_true, Option.getD_some, List.mem_append,
        List.mem_singleton] at hd
      rcases hd with hd | rfl
      · exact hst d hd
      · exact hs
    · by_cases hm : c = '<' ∧ ws ≠ []
      · obtain ⟨rfl, _⟩ := hm
        simp [tagStep_lt]
      · have hs2 : isSpace c = false := by simpa using hs
        have hstep : tagStep (some ws) c = (ws ++ [c], afterChar c) := by
          simp only [tagStep, hs2, Bool.false_eq_true, if_false, hm, afterChar]
        rw [hstep]
        refine ⟨?_, ?_⟩
        · simp only [List.filter_append, filter_of_spaces ws hst, List.nil_append]
        · by_cases hc : c = '>' <;> simp [afterChar, hc]

theorem replaceTagGapsFrom_filter (s : Str) (st : Option Str)
    (hst : ∀ d ∈ st.getD [], isSpace d = true) :
    (replaceTagGapsFrom st s).filter (fun c => !isSpace c) = s.filter (fun c => !isSpace c) := by
  induction s generalizing st with
  | nil => simpa [replaceTagGapsFrom] using filter_of_spaces _ hst
  | cons c cs ih =>
    obtain ⟨h1, h2⟩ := tagStep_filter st c hst
    rw [replaceTagGapsFrom, List.filter_append, h1, ih _ h2, ← List.filter_append]
    rfl

theorem replaceSpacesFrom_filter (s : Str) (b : Bool) :
    (replaceSpacesFrom b s).filter (fun c => !isSpace c) = s.filter (fun c => !isSpace c) := by
  have hsp : isSpace ' ' = true := by decide
  induction s generalizing b with
  | nil => simp [replaceSpacesFrom]
  | cons c cs ih =>
    by_cases hc : isSpace c = true
    · cases b <;> simp [replaceSpacesFrom, hc, ih, hsp]
    · simp [replaceSpacesFrom, hc, ih]

/-- The clean-up leaves the characters other than whitespace as they are, in
their order. -/
theorem cleanMessage_filter (s : Str) :
    (cleanMessage s).filter (fun c => !isSpace c) = s.filter (fun c => !isSpace c) := by
  rw [cleanMessage, replaceSpaces, replaceSpacesFrom_filter, replaceTagGaps,
    replaceTagGapsFrom_filter _ _ (by simp)]

theorem appendNamespaces_eq (request : Str) (nss : List Str) :
    appendNamespaces request nss = request ++ nss.flatMap (fun ns => ' ' :: ns) := by
  induction nss generalizing request with
  | nil => simp [appendNamespaces]
  | cons ns rest ih => simp [appendNamespaces, ih, List.flatMap_cons]

theorem rootStartTag_chunk (soap : SOAP) : IsChunk (rootStartTag soap) := by
  constructor
  · simp [rootStartTag, appendNamespaces_eq]
  · simp [rootStartTag]

theorem rootStartTag_split (soap : SOAP) (ns : Str) (h : ns ∈ soap.XMLNs) :
    ∃ pre post, rootStartTag soap = pre ++ ns ++ post := by
  obtain ⟨a, b, hab⟩ := List.append_of_mem h
  refine ⟨"<?xml version=\"1.0\" encoding=\"UTF-8\"?>".toList ++
    "<s:Envelope xmlns:s=\"http://www.w3.org/2003/05/soap-envelope\"".toList ++
    a.flatMap (fun ns => ' ' :: ns) ++ [' '], b.flatMap (fun ns => ' ' :: ns) ++ ['>'], ?_⟩
  simp [rootStartTag, appendNamespaces_eq, hab, List.flatMap_append, List.flatMap_cons]

/-! ## The envelope builder -/

set_option maxRecDepth 100000 in
theorem cleanMessage_headerOpen :
    cleanMessage ("<s:Header>".toList ++ securityOpen) =
      "<s:Header><Security s:mustUnderstand=\"1\" xmlns=\"http://docs.oasis-open.org/wss/2004/01/oasis-200401-wss-wssecurity-secext-1.0.xsd\"><UsernameToken><Username>".toList := by
  decide

theorem cleanMessage_passwordOpen :
    cleanMessage passwordOpen =
      "</Username><Password Type=\"http://docs.oasis-open.org/wss/2004/01/oasis-200401-wss-username-token-profile-1.0#PasswordDigest\">".toList := by
  decide

theorem cleanMessage_nonceOpen :
    cleanMessage nonceOpen =
      "</Password><Nonce EncodingType=\"http://docs.oasis-open.org/wss/2004/01/oasis-200401-wss-soap-message-security-1.0#Base64Binary\">".toList := by
  decide

theorem cleanMessage_createdOpen :
    cleanMessage createdOpen =
      "</Nonce><Created xmlns=\"http://docs.oasis-open.org/wss/2004/01/oasis-200401-wss-wssecurity-utility-1.0.xsd\">".toList := by
  decide

theorem cleanMessage_headerClose :
    cleanMessage (securityClose ++ ("</s:Header>".toList ++ "<s:Body>".toList)) =
      "</Created></UsernameToken></Security></s:Header><s:Body>".toList := by
  decide

theorem cleanMessage_emptyHeader :
    cleanMessage ("<s:Header>".toList ++ ("</s:Header>".toList ++ "<s:Body>".toList)) =
      "<s:Header></s:Header><s:Body>".toList := by
  decide

theorem cleanMessage_bodyOpen : cleanMessage "<s:Body>".toList = "<s:Body>".toList := by
  decide

theorem cleanMessage_bodyClose :
    cleanMessage ("</s:Body>".toList ++ "</s:Envelope>".toList) =
      "</s:Body></s:Envelope>".toList := by
  decide

theorem cleanMessage_eq_cleanFrom (s : Str) : cleanMessage s = cleanFrom none false s := rfl

/-- The body and the end of the envelope, after a piece of markup. -/
theorem cleanFrom_body (body : Str) :
    cleanFrom (some []) false (body ++ ("</s:Body>".toList ++ "</s:Envelope>".toList)) =
      cleanInner body ++ "</s:Body></s:Envelope>".toList := by
  have h := cleanFrom_inner body ("</s:Body>".toList ++ "</s:Envelope>".toList) []
    (by decide)
  rw [List.append_nil, cleanMessage_bodyClose, cleanFrom_nil (some []) false rfl, List.append_nil] at h
  exact h

/-- The document of a request without user. -/
theorem createRequest_anonymous (env : SoapEnv) (soap : SOAP) (huser : soap.User = []) :
    createRequest env soap =
      cleanMessage (rootStartTag soap) ++ "<s:Body>".toList ++ cleanInner soap.Body ++
        "</s:Body></s:Envelope>".toList := by
  have hraw : buildRequest env soap = rootStartTag soap ++ ("<s:Body>".toList ++
      (soap.Body ++ ("</s:Body>".toList ++ "</s:Envelope>".toList))) := by
    simp only [buildRequest, huser, ne_eq, not_true_eq_false, if_false, List.append_assoc]
  rw [createRequest, cleanMessage_eq_cleanFrom, hraw,
    cleanFrom_chunk _ _ _ _ (rootStartTag_chunk soap),
    cleanFrom_chunk _ _ _ _ (by decide : IsChunk "<s:Body>".toList), cleanMessage_bodyOpen,
    cleanFrom_body]
  simp only [List.append_assoc]

/-- The document of a request with user when the random source fails. -/
theorem createRequest_no_token (env : SoapEnv) (soap : SOAP) (e : Error)
    (hfail : env.newV4 = .error e) (huser : soap.User ≠ []) :
    createRequest env soap =
      cleanMessage (rootStartTag soap) ++ "<s:Header></s:Header><s:Body>".toList ++
        cleanInner soap.Body ++ "</s:Body></s:Envelope>".toList := by
  have hraw : buildRequest env soap = rootStartTag soap ++
      (("<s:Header>".toList ++ ("</s:Header>".toList ++ "<s:Body>".toList)) ++
      (soap.Body ++ ("</s:Body>".toList ++ "</s:Envelope>".toList))) := by
    simp only [buildRequest, createUserToken, hfail, huser, ne_eq, not_false_eq_true, if_true,
      List.append_assoc, List.nil_append]
  rw [createRequest, cleanMessage_eq_cleanFrom, hraw,
    cleanFrom_chunk _ _ _ _ (rootStartTag_chunk soap),
    cleanFrom_chunk _ _ _ _ (by decide :
      IsChunk ("<s:Header>".toList ++ ("</s:Header>".toList ++ "<s:Body>".toList))),
    cleanMessage_emptyHeader, cleanFrom_body]
  simp only [List.append_assoc]

/-- The document of a request with user when the random source gives `nonce`. -/
theorem createRequest_token (env : SoapEnv) (soap : SOAP) (nonce : Bytes)
    (hnonce : env.newV4 = .ok nonce) (huser : soap.User ≠ []) :
    createRequest env soap =
      cleanMessage (rootStartTag soap) ++
        "<s:Header><Security s:mustUnderstand=\"1\" xmlns=\"http://docs.oasis-open.org/wss/2004/01/oasis-200401-wss-wssecurity-secext-1.0.xsd\"><UsernameToken><Username>".toList ++
        cleanInner soap.User ++
        "</Username><Password Type=\"http://docs.oasis-open.org/wss/2004/01/oasis-200401-wss-username-token-profile-1.0#PasswordDigest\">".toList ++
        base64Encode (sha1Sum
          (nonce ++ utf8 (env.timestamp soap.TokenAge) ++ utf8 soap.Password)) ++
        "</Password><Nonce EncodingType=\"http://docs.oasis-open.org/wss/2004/01/oasis-200401-wss-soap-message-security-1.0#Base64Binary\">".toList ++
        base64Encode nonce ++
        "</Nonce><Created xmlns=\"http://docs.oasis-open.org/wss/2004/01/oasis-200401-wss-wssecurity-utility-1.0.xsd\">".toList ++
        cleanInner (env.timestamp soap.TokenAge) ++
        "</Created></UsernameToken></Security></s:Header><s:Body>".toList ++
        cleanInner soap.Body ++ "</s:Body></s:Envelope>".toList := by
  have hraw : buildRequest env soap = rootStartTag soap ++
      (("<s:Header>".toList ++ securityOpen) ++ (soap.User ++ (passwordOpen ++
      (base64Encode (sha1Sum
          (nonce ++ utf8 (env.timestamp soap.TokenAge) ++ utf8 soap.Password)) ++
      (nonceOpen ++ (base64Encode nonce ++ (createdOpen ++ (env.timestamp soap.TokenAge ++
      ((securityClose ++ ("</s:Header>".toList ++ "<s:Body>".toList)) ++
      (soap.Body ++ ("</s:Body>".toList ++ "</s:Envelope>".toList))))))))))) := by
    simp only [buildRequest, createUserToken, hnonce, huser, ne_eq, not_false_eq_true, if_true,
      List.append_assoc]
  rw [createRequest, cleanMessage_eq_cleanFrom, hraw,
    cleanFrom_chunk _ _ _ _ (rootStartTag_chunk soap),
    cleanFrom_chunk _ _ _ _ (by decide : IsChunk ("<s:Header>".toList ++ securityOpen)),
    cleanFrom_inner _ _ _ (by decide : IsChunk passwordOpen),
    cleanFrom_inner _ _ _ (by decide : IsChunk nonceOpen),
    cleanFrom_inner _ _ _ (by decide : IsChunk createdOpen),
    cleanFrom_inner _ _ _ (by decide :
      IsChunk (securityClose ++ ("</s:Header>".toList ++ "<s:Body>".toList))),
    cleanFrom_body, cleanMessage_headerOpen, cleanMessage_passwordOpen, cleanMessage_nonceOpen,
    cleanMessage_createdOpen, cleanMessage_headerClose, cleanInner_base64, cleanInner_base64]
  simp only [List.append_assoc]

/-- C4, as amended: without user the root start tag is directly followed by
`<s:Body>`, no header section is emitted; with a user, whenever the random source
yields a nonce, the root start tag is followed by an `<s:Header>` section holding
the `Security`/`UsernameToken` block with its `Username`, `Password`, `Nonce`
and `Created` elements (the digest and the nonce as computed, the user name and
the timestamp as the clean-up leaves them), and then by `<s:Body>`. -/
theorem createRequest_security_header (env : SoapEnv) (soap : SOAP) :
    (soap.User = [] →
      createRequest env soap =
        cleanMessage (rootStartTag soap) ++ "<s:Body>".toList ++ cleanInner soap.Body ++
          "</s:Body></s:Envelope>".toList) ∧
    (soap.User ≠ [] → ∀ nonce : Bytes, env.newV4 = .ok nonce →
      createRequest env soap =
        cleanMessage (rootStartTag soap) ++
          "<s:Header><Security s:mustUnderstand=\"1\" xmlns=\"http://docs.oasis-open.org/wss/2004/01/oasis-200401-wss-wssecurity-secext-1.0.xsd\"><UsernameToken><Username>".toList ++
          cleanInner soap.User ++
          "</Username><Password Type=\"http://docs.oasis-open.org/wss/2004/01/oasis-200401-wss-username-token-profile-1.0#PasswordDigest\">".toList ++
          base64Encode (sha1Sum
            (nonce ++ utf8 (env.timestamp soap.TokenAge) ++ utf8 soap.Password)) ++
          "</Password><Nonce EncodingType=\"http://docs.oasis-open.org/wss/2004/01/oasis-200401-wss-soap-message-security-1.0#Base64Binary\">".toList ++
          base64Encode nonce ++
          "</Nonce><Created xmlns=\"http://docs.oasis-open.org/wss/2004/01/oasis-200401-wss-wssecurity-utility-1.0.xsd\">".toList ++
          cleanInner (env.timestamp soap.TokenAge) ++
          "</Created></UsernameToken></Security></s:Header><s:Body>".toList ++
          cleanInner soap.Body ++ "</s:Body></s:Envelope>".toList) :=
  ⟨createRequest_anonymous env soap,
    fun huser nonce hnonce => createRequest_token env soap nonce hnonce huser⟩

set_option maxRecDepth 1000000 in
/-- C4 as amended, on samples: the document of `anonymousSoap`, and the document
of `adminSoap` with nonce `0..15` at `2024-01-02T03:04:05Z`. -/
theorem createRequest_security_header_samples :
    createRequest (sampleSoapEnv (.ok sampleNonce) [1]) anonymousSoap =
      "<?xml version=\"1.0\" encoding=\"UTF-8\"?><s:Envelope xmlns:s=\"http://www.w3.org/2003/05/soap-envelope\" xmlns:tds=\"http://www.onvif.org/ver10/device/wsdl\"><s:Body><tds:GetHostname/></s:Body></s:Envelope>".toList ∧
    createRequest (sampleSoapEnv (.ok sampleNonce) [1]) adminSoap =
      "<?xml version=\"1.0\" encoding=\"UTF-8\"?><s:Envelope xmlns:s=\"http://www.w3.org/2003/05/soap-envelope\" xmlns:tds=\"http://www.onvif.org/ver10/device/wsdl\"><s:Header><Security s:mustUnderstand=\"1\" xmlns=\"http://docs.oasis-open.org/wss/2004/01/oasis-200401-wss-wssecurity-secext-1.0.xsd\"><UsernameToken><Username>admin</Username><Password Type=\"http://docs.oasis-open.org/wss/2004/01/oasis-200401-wss-username-token-profile-1.0#PasswordDigest\">VyEYt6zT3gbBBmnuIVct7R2u9RA=</Password><Nonce EncodingType=\"http://docs.oasis-open.org/wss/2004/01/oasis-200401-wss-soap-message-security-1.0#Base64Binary\">AAECAwQFBgcICQoLDA0ODw==</Nonce><Created xmlns=\"http://docs.oasis-open.org/wss/2004/01/oasis-200401-wss-wssecurity-utility-1.0.xsd\">2024-01-02T03:04:05Z</Created></UsernameToken></Security></s:Header><s:Body><tds:GetHostname/></s:Body></s:Envelope>".toList :=
  ⟨((createRequest_security_header (sampleSoapEnv (.ok sampleNonce) [1]) anonymousSoap).1
      rfl).trans (by decide),
    ((createRequest_security_header (sampleSoapEnv (.ok sampleNonce) [1]) adminSoap).2
      (by decide) sampleNonce rfl).trans (by decide)⟩

set_option maxRecDepth 100000 in
/-- C4, as stated, fails: `adminSoap` has a user, the random source of
`noRandomEnv` fails, and the document holds an empty header section, with no
`Security` block in it. -/
theorem createRequest_header_without_block :
    adminSoap.User ≠ [] ∧ createRequest noRandomEnv adminSoap = emptyHeaderDocument ∧
      ¬ "<Security".toList <:+: createRequest noRandomEnv adminSoap := by
  refine ⟨by decide, by decide, by decide⟩

theorem strictDevice_accepts (expected : Str) (req : HttpRequest)
    (h1 : req.method = "POST".toList) (h2 : req.body = utf8 expected) :
    strictDevice expected req = .ok (.ok [1]) := by
  simp only [strictDevice, h1, h2, and_self, if_true]

/-- C5, as amended: when the random source fails for a request with a user,
`createUserToken` returns the empty string, the document has an empty header
section, and `SendRequest` goes on with that document: when the address parses,
the exchange of that document succeeds and the response holds no fault,
`SendRequest` returns the decoded response and a nil error. -/
theorem SendRequest_random_failure (env : SoapEnv) (soap : SOAP) (e : Error)
    (hfail : env.newV4 = .error e) (huser : soap.User ≠ []) :
    createUserToken env soap = [] ∧
    createRequest env soap =
      cleanMessage (rootStartTag soap) ++ "<s:Header></s:Header><s:Body>".toList ++
        cleanInner soap.Body ++ "</s:Body></s:Envelope>".toList ∧
    ∀ (xaddr : Str) (url : URL) (responseBody : Bytes) (mapXML : Map),
      env.urlParse xaddr = .ok url →
      env.httpDo (postRequest soap url
        (cleanMessage (rootStartTag soap) ++ "<s:Header></s:Header><s:Body>".toList ++
          cleanInner soap.Body ++ "</s:Body></s:Envelope>".toList)) = .ok (.ok responseBody) →
      env.newMapXml responseBody = .ok mapXML →
      (ValueForPathString mapXML "Envelope.Body.Fault.Reason.Text.#text".toList).1 = [] →
      SendRequest env soap xaddr = (some mapXML, none) := by
  refine ⟨by simp only [createUserToken, hfail], createRequest_no_token env soap e hfail huser, ?_⟩
  intro xaddr url responseBody mapXML hurl hhttp hdec hfault
  simp only [SendRequest, hurl, createRequest_no_token env soap e hfail huser, hhttp, hdec,
    hfault, ne_eq, not_true_eq_false, if_false]

set_option maxRecDepth 100000 in
/-- C5 as amended, on `noRandomEnv`, whose device accepts only the document with
the empty header section. -/
theorem SendRequest_random_failure_sample :
    SendRequest noRandomEnv adminSoap "http://cam/service".toList =
      (some okResponseTree, none) :=
  (SendRequest_random_failure noRandomEnv adminSoap (.external false "unexpected EOF".toList)
    rfl (by decide)).2.2 "http://cam/service".toList ⟨none, "http://cam/service".toList⟩ [1]
    okResponseTree rfl
    (strictDevice_accepts emptyHeaderDocument
      (postRequest adminSoap ⟨none, "http://cam/service".toList⟩
        (cleanMessage (rootStartTag adminSoap) ++ "<s:Header></s:Header><s:Body>".toList ++
          cleanInner adminSoap.Body ++ "</s:Body></s:Envelope>".toList))
      rfl (by decide))
    rfl (by decide)

set_option maxRecDepth 100000 in
/-- C5, as stated, fails: on `noRandomEnv` the random source fails, the user of
`adminSoap` is not empty, the token is empty, and `SendRequest` returns no
error: the device, which accepts only `emptyHeaderDocument`, has been sent it. -/
theorem SendRequest_sends_without_token :
    adminSoap.User ≠ [] ∧ createUserToken noRandomEnv adminSoap = [] ∧
    (SendRequest noRandomEnv adminSoap "http://cam/service".toList).2 = none ∧
    (SendRequest noRandomEnv adminSoap "http://cam/service".toList).1.isSome = true := by
  refine ⟨by decide, by decide, by decide, by decide⟩

/-! ## The clean-up against its description -/

theorem cleanFrom_step (st : Option Str) (b : Bool) (c : Char) (cs : Str) :
    cleanFrom st b (c :: cs) =
      replaceSpacesFrom b (tagStep st c).1 ++
        cleanFrom (tagStep st c).2 (spaceState b (tagStep st c).1) cs := by
  have h := cleanFrom_append st b [c] cs
  simpa [tagOut, tagState] using h

theorem replaceSpacesFrom_run (ws : Str) (h : ∀ d ∈ ws, isSpace d = true) :
    replaceSpacesFrom true ws = [] ∧ spaceState true ws = true ∧
      (ws ≠ [] → replaceSpacesFrom false ws = [' '] ∧ spaceState false ws = true) := by
  induction ws with
  | nil => simp [replaceSpacesFrom, spaceState]
  | cons w ws ih =>
    have hw : isSpace w = true := h w (by simp)
    obtain ⟨ih1, ih2, _⟩ := ih (fun d hd => h d (by simp [hd]))
    simp [replaceSpacesFrom, spaceState, hw, ih1, ih2]

theorem gapAhead_space (c : Char) (cs : Str) (h : isSpace c = true) :
    gapAhead (c :: cs) = gapAhead cs := by
  simp [gapAhead, List.dropWhile, h]

theorem gapAhead_nonspace (c : Char) (cs : Str) (h : isSpace c = false) :
    gapAhead (c :: cs) = decide (c = '<') := by
  simp [gapAhead, List.dropWhile, h]

theorem cleanSpec_nonspace (prev : Option Char) (c : Char) (cs : Str) (h : isSpace c = false) :
    cleanSpec prev (c :: cs) = c :: cleanSpec (some c) cs := by
  simp [cleanSpec, h]

theorem cleanSpec_space (prev : Option Char) (c : Char) (cs : Str) (h : isSpace c = true) :
    cleanSpec prev (c :: cs) =
      if prev = some '>' ∧ gapAhead cs = true then cleanSpec prev cs
      else if prev = some ' ' then cleanSpec prev cs
      else ' ' :: cleanSpec (some ' ') cs := by
  simp [cleanSpec, h]

theorem cleanFrom_spec (s : Str) :
    cleanFrom none false s = cleanSpec none s ∧
    (∀ p, isSpace p = false → cleanFrom (afterChar p) false s = cleanSpec (some p) s) ∧
    cleanFrom none true s = cleanSpec (some ' ') s ∧
    (∀ ws, ws ≠ [] → (∀ d ∈ ws, isSpace d = true) →
      cleanFrom (some ws) false s =
        if gapAhead s = true then cleanSpec (some '>') s
        else ' ' :: cleanSpec (some ' ') s) := by
  have hsp : isSpace ' ' = true := by decide
  induction s with
  | nil =>
    refine ⟨rfl, ?_, rfl, ?_⟩
    · intro p _
      by_cases hp : p = '>' <;>
        simp [afterChar, hp, cleanFrom, replaceTagGapsFrom, replaceSpacesFrom, cleanSpec]
    · intro ws hws hall
      have h := (replaceSpacesFrom_run ws hall).2.2 hws
      simp [cleanFrom, replaceTagGapsFrom, h.1, gapAhead, cleanSpec]
  | cons c cs ih =>
    obtain ⟨ih0, ih1, ih2, ih3⟩ := ih
    by_cases hc : isSpace c = true
    · have hgt : c ≠ '>' := by rintro rfl; exact absurd hc (by decide)
      have hnone : tagStep none c = ([c], none) := by simp [tagStep, hgt]
      have hstart : cleanFrom none false (c :: cs) = ' ' :: cleanSpec (some ' ') cs := by
        rw [cleanFrom_step, hnone]
        simp [replaceSpacesFrom, spaceState, hc, ih2]
      refine ⟨?_, ?_, ?_, ?_⟩
      · rw [hstart, cleanSpec_space _ _ _ hc]
        simp
      · intro p hp
        have hpsp : p ≠ ' ' := by rintro rfl; rw [hsp] at hp; exact absurd hp (by simp)
        by_cases hpg : p = '>'
        · subst hpg
          have h0 : afterChar '>' = some [] := by simp [afterChar]
          have h1 : tagStep (some []) c = ([], some [c]) := by simp [tagStep, hc]
          rw [h0, cleanFrom_step, h1, cleanSpec_space _ _ _ hc]
          simp only [replaceSpacesFrom, spaceState, List.nil_append]
          rw [ih3 [c] (by simp) (by simpa using hc)]
          by_cases hg : gapAhead cs = true <;> simp [hg]
        · have h0 : afterChar p = none := by simp [afterChar, hpg]
          rw [h0, hstart, cleanSpec_space _ _ _ hc]
          simp [hpg, hpsp]
      · rw [cleanFrom_step, hnone, cleanSpec_space _ _ _ hc]
        simp [replaceSpacesFrom, spaceState, hc, ih2]
      · intro ws hws hall
        have h1 : tagStep (some ws) c = ([], some (ws ++ [c])) := by simp [tagStep, hc]
        rw [cleanFrom_step, h1, gapAhead_space _ _ hc, cleanSpec_space _ _ _ hc,
          cleanSpec_space _ _ _ hc]
        simp only [replaceSpacesFrom, spaceState, List.nil_append]
        rw [ih3 (ws ++ [c]) (by simp) (by
          intro d hd
          rcases List.mem_append.mp hd with hd | hd
          · exact hall d hd
          · simpa [List.mem_singleton.mp hd] using hc)]
        by_cases hg : gapAhead cs = true <;> simp [hg]
    · have hc2 : isSpace c = false := by simpa using hc
      have hnone : tagStep none c = ([c], afterChar c) := by simp [tagStep, afterChar]
      have hout : ∀ b, replaceSpacesFrom b [c] = [c] ∧ spaceState b [c] = false := by
        intro b; simp [replaceSpacesFrom, spaceState, hc2]
      refine ⟨?_, ?_, ?_, ?_⟩
      · rw [cleanFrom_step, hnone, cleanSpec_nonspace _ _ _ hc2]
        simp only [(hout false).1, (hout false).2, List.singleton_append, ih1 c hc2]
      · intro p hp
        rw [cleanFrom_step, tagStep_afterChar p c hc2, cleanSpec_nonspace _ _ _ hc2]
        simp only [(hout false).1, (hout false).2, List.singleton_append, ih1 c hc2]
      · rw [cleanFrom_step, hnone, cleanSpec_nonspace _ _ _ hc2]
        simp only [(hout true).1, (hout true).2, List.singleton_append, ih1 c hc2]
      · intro ws hws hall
        have hrun := (replaceSpacesFrom_run ws hall).2.2 hws
        by_cases hlt : c = '<'
        · subst hlt
          have h0 : afterChar '<' = none := by simp [afterChar]
          have h1 := ih1 '<' hc2
          rw [h0] at h1
          rw [cleanFrom_step, tagStep_lt, gapAhead_nonspace _ _ hc2,
            cleanSpec_nonspace _ _ _ hc2]
          simp [replaceSpacesFrom, spaceState, hc2, h1]
        · have h1 : tagStep (some ws) c = (ws ++ [c], afterChar c) := by
            simp only [tagStep, hc2, Bool.false_eq_true, if_false, hlt, false_and, afterChar]
          rw [cleanFrom_step, h1, gapAhead_nonspace _ _ hc2, cleanSpec_nonspace _ _ _ hc2]
          simp only [replaceSpacesFrom_append, hrun.1, hrun.2, spaceState_append,
            replaceSpacesFrom_nonspace true c [] hc2, replaceSpacesFrom, spaceState, hc2,
            ih1 c hc2]
          simp [hlt, cleanSpec_nonspace (some ' ') c cs hc2]

/-- The clean-up does what its description says. -/
theorem cleanMessage_eq_cleanSpec (s : Str) : cleanMessage s = cleanSpec none s :=
  (cleanFrom_spec s).1

theorem gapAhead_congr (a x y : Str) (h : gapAhead x = gapAhead y) :
    gapAhead (a ++ x) = gapAhead (a ++ y) := by
  induction a with
  | nil => simpa using h
  | cons c a ih =>
    cases hc : isSpace c with
    | true => rw [List.cons_append, List.cons_append, gapAhead_space _ _ hc,
        gapAhead_space _ _ hc, ih]
    | false => rw [List.cons_append, List.cons_append, gapAhead_nonspace _ _ hc,
        gapAhead_nonspace _ _ hc]

theorem cleanSpec_congr (a x y : Str) (hg : gapAhead x = gapAhead y)
    (h : ∀ prev, cleanSpec prev x = cleanSpec prev y) :
    ∀ prev, cleanSpec prev (a ++ x) = cleanSpec prev (a ++ y) := by
  induction a with
  | nil => simpa using h
  | cons c a ih =>
    intro prev
    cases hc : isSpace c with
    | true =>
      rw [List.cons_append, List.cons_append, cleanSpec_space _ _ _ hc,
        cleanSpec_space _ _ _ hc, gapAhead_congr a x y hg, ih prev, ih (some ' ')]
    | false =>
      rw [List.cons_append, List.cons_append, cleanSpec_nonspace _ _ _ hc,
        cleanSpec_nonspace _ _ _ hc, ih]

theorem gapAhead_run (ws b : Str) (hall : ∀ d ∈ ws, isSpace d = true) :
    gapAhead (ws ++ b) = gapAhead b := by
  induction ws with
  | nil => rfl
  | cons w ws ih =>
    rw [List.cons_append, gapAhead_space _ _ (hall w (by simp)),
      ih (fun d hd => hall d (by simp [hd]))]

/-- In the description, a whitespace run counts as much as one space. -/
theorem cleanSpec_run (ws b : Str) (hws : ws ≠ []) (hall : ∀ d ∈ ws, isSpace d = true) :
    ∀ prev, cleanSpec prev (ws ++ b) = cleanSpec prev (' ' :: b) := by
  have hsp : isSpace ' ' = true := by decide
  induction ws with
  | nil => exact absurd rfl hws
  | cons w ws ih =>
    intro prev
    have hw : isSpace w = true := hall w (by simp)
    by_cases hnil : ws = []
    · subst hnil
      rw [List.singleton_append, cleanSpec_space _ _ _ hw, cleanSpec_space _ _ _ hsp]
    · have hrest : ∀ d ∈ ws, isSpace d = true := fun d hd => hall d (by simp [hd])
      rw [List.cons_append, cleanSpec_space _ _ _ hw, gapAhead_run ws b hrest,
        ih hnil hrest prev, ih hnil hrest (some ' '), cleanSpec_space prev _ _ hsp,
        cleanSpec_space (some ' ') _ _ hsp]
      by_cases h1 : prev = some '>' ∧ gapAhead b = true
      · simp [h1]
      · by_cases h2 : prev = some ' ' <;> simp [h1, h2]

/-- In the description, a whitespace run between `>` and `<` counts for nothing. -/
theorem cleanSpec_gap (ws b : Str) (hall : ∀ d ∈ ws, isSpace d = true) :
    ∀ prev, cleanSpec prev ('>' :: (ws ++ '<' :: b)) = cleanSpec prev ('>' :: '<' :: b) := by
  have hsp : isSpace ' ' = true := by decide
  have hgt : isSpace '>' = false := by decide
  have hlt : isSpace '<' = false := by decide
  intro prev
  by_cases hws : ws = []
  · subst hws; rfl
  · rw [cleanSpec_nonspace _ _ _ hgt, cleanSpec_nonspace _ _ _ hgt,
      cleanSpec_run ws _ hws hall, cleanSpec_space _ _ _ hsp, gapAhead_nonspace _ _ hlt]
    simp

theorem buildRequest_body (env : SoapEnv) (soap : SOAP) :
    buildRequest env soap =
      bodyLead env soap ++ (soap.Body ++ ("</s:Body>".toList ++ "</s:Envelope>".toList)) := by
  by_cases huser : soap.User = []
  · simp only [buildRequest, bodyLead, huser, ne_eq, not_true_eq_false, if_false,
      List.append_assoc]
  · simp only [buildRequest, bodyLead, huser, ne_eq, not_false_eq_true, if_true,
      List.append_assoc]

theorem createRequest_body_congr (env : SoapEnv) (soap : SOAP) (a x y b : Str)
    (hbody : soap.Body = a ++ (x ++ b)) (hg : ∀ t, gapAhead (x ++ t) = gapAhead (y ++ t))
    (h : ∀ t prev, cleanSpec prev (x ++ t) = cleanSpec prev (y ++ t)) :
    createRequest env soap = createRequest env { soap with Body := a ++ (y ++ b) } := by
  have hlead : bodyLead env { soap with Body := a ++ (y ++ b) } = bodyLead env soap := rfl
  have htail : ∀ z : Str,
      bodyLead env soap ++ (a ++ (z ++ b) ++ ("</s:Body>".toList ++ "</s:Envelope>".toList)) =
        (bodyLead env soap ++ a) ++
          (z ++ (b ++ ("</s:Body>".toList ++ "</s:Envelope>".toList))) := by
    intro z; simp only [List.append_assoc]
  rw [createRequest, createRequest, cleanMessage_eq_cleanSpec, cleanMessage_eq_cleanSpec,
    buildRequest_body, buildRequest_body, hlead, hbody]
  show cleanSpec none (bodyLead env soap ++ (a ++ (x ++ b) ++ _)) =
    cleanSpec none (bodyLead env soap ++ (a ++ (y ++ b) ++ _))
  rw [htail x, htail y]
  exact cleanSpec_congr _ _ _ (hg _) (h _) none

/-- C9, as amended: the clean-up changes whitespace only, wherever it lies.
(1) The returned document is the request before the clean-up with every
whitespace run that stands directly between a `>` and a `<` removed and every
other whitespace run replaced by one space (`cleanSpec`).  (2) Its characters
other than whitespace are those of the request before the clean-up, in order.
(3) A whitespace run of `Body` between a `>` and a `<` counts for nothing: the
document is that of the body without the run.  (4) Any whitespace run of `Body`,
also inside text content or an attribute value, counts as one space: the document
is that of the body with one space in its place.  (5), (6) A `Body`, or a
namespace declaration, whose only whitespace is single space characters, none
first or last in it and none directly between a `>` and a `<`, appears in the
returned document character for character. -/
theorem createRequest_cleanup (env : SoapEnv) (soap : SOAP) :
    createRequest env soap = cleanSpec none (buildRequest env soap) ∧
    (createRequest env soap).filter (fun c => !isSpace c) =
      (buildRequest env soap).filter (fun c => !isSpace c) ∧
    (∀ a ws b : Str, soap.Body = a ++ '>' :: (ws ++ '<' :: b) →
      (∀ c ∈ ws, isSpace c = true) →
      createRequest env soap = createRequest env { soap with Body := a ++ '>' :: '<' :: b }) ∧
    (∀ a ws b : Str, soap.Body = a ++ (ws ++ b) → ws ≠ [] → (∀ c ∈ ws, isSpace c = true) →
      createRequest env soap = createRequest env { soap with Body := a ++ ' ' :: b }) ∧
    (Tidy soap.Body → soap.Body <:+: createRequest env soap) ∧
    (∀ ns ∈ soap.XMLNs, Tidy ns → ns <:+: createRequest env soap) := by
  have hgt : isSpace '>' = false := by decide
  have hsp : isSpace ' ' = true := by decide
  refine ⟨cleanMessage_eq_cleanSpec _, cleanMessage_filter _, ?_, ?_, ?_, ?_⟩
  · intro a ws b hbody hall
    have h := createRequest_body_congr env soap a ('>' :: (ws ++ ['<'])) ['>', '<'] b
      (by simpa using hbody)
      (fun t => by
        rw [List.cons_append, List.cons_append, gapAhead_nonspace _ _ hgt,
          gapAhead_nonspace _ _ hgt])
      (fun t prev => by
        have := cleanSpec_gap ws t hall prev
        simpa using this)
    simpa using h
  · intro a ws b hbody hws hall
    have h := createRequest_body_congr env soap a ws [' '] b hbody
      (fun t => by
        rw [gapAhead_run ws t hall, List.singleton_append, gapAhead_space _ _ hsp])
      (fun t prev => by
        rw [cleanSpec_run ws t hws hall prev, List.singleton_append])
    simpa using h
  · intro hbody
    rw [createRequest, buildRequest_body, ← List.append_assoc]
    exact tidy_infix_cleanMessage _ _ _ hbody
  · intro ns hns htidy
    obtain ⟨pre, post, h⟩ := rootStartTag_split soap ns hns
    have hraw : ∃ rest, buildRequest env soap = rootStartTag soap ++ rest := by
      by_cases huser : soap.User = []
      · exact ⟨"<s:Body>".toList ++ soap.Body ++ "</s:Body>".toList ++ "</s:Envelope>".toList,
          by simp only [buildRequest, huser, ne_eq, not_true_eq_false, if_false,
            List.append_assoc]⟩
      · exact ⟨("<s:Header>".toList ++ createUserToken env soap ++ "</s:Header>".toList) ++
          ("<s:Body>".toList ++ soap.Body ++ "</s:Body>".toList) ++ "</s:Envelope>".toList,
          by simp only [buildRequest, huser, ne_eq, not_false_eq_true, if_true,
            List.append_assoc]⟩
    obtain ⟨rest, hrest⟩ := hraw
    rw [createRequest, hrest, h, List.append_assoc]
    exact tidy_infix_cleanMessage _ _ _ htidy

set_option maxRecDepth 100000 in
/-- C9 as amended, on `messySoap` without random source.  Its body is
`<a>`, newline, two spaces, `<b>x`, space, tab, space, `y</b>`, newline, `</a>`.
In the document the body reads `<a><b>x y</b></a>`; the document is that of the
body without the run after `<a>`, and that of the body with one space between
`x` and `y`; the namespace declaration, with its single space, and the tidy
body `<a><b>x y</b></a>` appear as supplied. -/
theorem createRequest_cleanup_sample :
    createRequest noRandomEnv messySoap =
      "<?xml version=\"1.0\" encoding=\"UTF-8\"?><s:Envelope xmlns:s=\"http://www.w3.org/2003/05/soap-envelope\" xmlns:t=\"urn:x y\"><s:Header></s:Header><s:Body><a><b>x y</b></a></s:Body></s:Envelope>".toList ∧
    createRequest noRandomEnv messySoap =
      createRequest noRandomEnv { messySoap with Body := "<a><b>x \t y</b>\n</a>".toList } ∧
    createRequest noRandomEnv messySoap =
      createRequest noRandomEnv { messySoap with Body := "<a>\n  <b>x y</b>\n</a>".toList } ∧
    "<a><b>x y</b></a>".toList <:+:
      createRequest noRandomEnv { messySoap with Body := "<a><b>x y</b></a>".toList } ∧
    "xmlns:t=\"urn:x y\"".toList <:+: createRequest noRandomEnv messySoap :=
  ⟨(createRequest_cleanup noRandomEnv messySoap).1.trans (by decide),
    (createRequest_cleanup noRandomEnv messySoap).2.2.1 "<a".toList "\n  ".toList
      "b>x \t y</b>\n</a>".toList (by decide) (by decide),
    (createRequest_cleanup noRandomEnv messySoap).2.2.2.1 "<a>\n  <b>x".toList " \t ".toList
      "y</b>\n</a>".toList (by decide) (by decide) (by decide),
    (createRequest_cleanup noRandomEnv
      { messySoap with Body := "<a><b>x y</b></a>".toList }).2.2.2.2.1 (by decide),
    (createRequest_cleanup noRandomEnv messySoap).2.2.2.2.2 _ (by decide) (by decide)⟩

set_option maxRecDepth 100000 in
/-- C9, as stated, fails: the text content `x  y` of the body of `spacedSoap`
holds a run of two spaces; the returned document holds `x y`, and the body as
supplied does not appear in it. -/
theorem createRequest_collapses_inner_whitespace :
    createRequest noRandomEnv spacedSoap =
      "<?xml version=\"1.0\" encoding=\"UTF-8\"?><s:Envelope xmlns:s=\"http://www.w3.org/2003/05/soap-envelope\"><s:Body><a>x y</a></s:Body></s:Envelope>".toList ∧
    ¬ spacedSoap.Body <:+: createRequest noRandomEnv spacedSoap := by
  refine ⟨by decide, by decide⟩

end Onvif
